import Mathlib

/-!
# Calibration converter (`calibration_converter.cpp`)

A shallow embedding of the converter that turns a Basalt calibration record into a JSON
document and a console report, followed by theorems about the document and the report.

Conventions of the embedding.

* Scalars (`double` in the source) are an arbitrary type `S`: the converter only copies them.
* The pose type is an arbitrary type `P` with the two operations the converter calls on it
  (`inverse()` and `matrix()`); a concrete rigid-transform model is given for the claims that
  speak about the value of the inverse.
* `nlohmann::json` values are the inductive type `Json`.  An object is a `std::map` keyed by
  `std::string`, so its members are kept sorted by key, whatever the order of assignment.
* The source checks no index.  An access that is outside its container (undefined
  behaviour, or a failed assertion, in the source) is marked by a `Fault`, and so is a JSON
  operation applied to the wrong kind of value (an exception in the source).  A `Fault` says
  that the run has reached such a point; the embedding describes the run up to that point
  and not what the source does from there on.
* The standard output is a list of tokens `Out`.
-/

namespace CalibrationConverter

/-! ## Data model -/

/-- The points at which the embedding stops describing the converter: an access outside a
container, which the source does not check, or an exception of the JSON library. -/
inductive Fault where
  /-- A JSON operation on a value of the wrong kind (`nlohmann::json::type_error`). -/
  | jsonType
  /-- The access `calib.intrinsics[i]` is past the end of the list. -/
  | intrinsicsIndex
  /-- The access `calib.vignette[i]` is past the end of the list. -/
  | vignetteIndex
  /-- The access `calib.T_i_c[i]` is past the end of the list. -/
  | poseIndex
  /-- The access `params(j)` is past the end of the parameter vector. -/
  | paramIndex
  deriving DecidableEq, Repr

/-- Values of `nlohmann::json`, with scalars of type `S`.  The members of an object are listed
in the order in which the library stores and prints them. -/
inductive Json (S : Type) where
  | null
  | bool (b : Bool)
  | int (n : Int)
  | num (x : S)
  | str (s : String)
  | arr (xs : List (Json S))
  | obj (kvs : List (String × Json S))

instance {S : Type} : Inhabited (Json S) := ⟨Json.null⟩

/-- Tokens sent to the standard output with `operator<<`. -/
inductive Out (S : Type) where
  /-- A string literal. -/
  | text (s : String)
  /-- A scalar, printed with 18 significant digits. -/
  | val (x : S)
  /-- A `size_t`. -/
  | size (n : Nat)
  /-- A whole 4x4 matrix printed by the matrix library. -/
  | mat (m : Matrix (Fin 4) (Fin 4) S)
  /-- The token `std::endl`. -/
  | endl

/-- The two operations the converter calls on a pose (`Sophus::SE3<double>` in the source). -/
class PoseLib (P : Type) (S : outParam Type) where
  /-- The member function `inverse()`. -/
  inverse : P → P
  /-- The member function `matrix()`: the 4x4 homogeneous matrix. -/
  matrix : P → Matrix (Fin 4) (Fin 4) S

/-- Intrinsics of one camera as the converter sees them: `getName()` and `getParam()`.  The
converter indexes the parameters at run time and never asks for their number; the camera
types of the calibration library are not part of the sources, so any length is admitted. -/
structure Intrinsics (S : Type) where
  getName : String
  getParam : List S

/-- One knot of a vignette curve: a vector with a first coordinate `knot(0)`. -/
structure Knot (S : Type) where
  first : S
  others : List S

/-- Vignette curve of one camera: `getKnots()`. -/
structure Vignette (S : Type) where
  getKnots : List (Knot S)

/-- The calibration record (`basalt::Calibration<double>`), restricted to the members the
converter reads.  The three per-camera lists are separate members, as in the source. -/
structure Calibration (S P : Type) where
  T_i_c : List P
  intrinsics : List (Intrinsics S)
  vignette : List (Vignette S)
  /-- An `int` in the calibration library. -/
  imu_update_rate : Int
  gyro_noise_std : Fin 3 → S
  gyro_bias_std : Fin 3 → S
  accel_noise_std : Fin 3 → S
  accel_bias_std : Fin 3 → S
  calib_gyro_bias : Fin 12 → S
  calib_accel_bias : Fin 9 → S

/-! ## The JSON library -/

/-- Lexicographic order on sequences of character codes. -/
def codesLt : List Nat → List Nat → Bool
  | [], [] => false
  | [], _ :: _ => true
  | _ :: _, [] => false
  | a :: as, b :: bs => decide (a < b) || (a == b && codesLt as bs)

/-- Order of object keys: `std::less` on `std::string`, that is lexicographic order. -/
def keyLt (a b : String) : Bool :=
  codesLt (a.data.map Char.toNat) (b.data.map Char.toNat)

/-- Insertion of a member in a key-sorted member list; an existing member with the same key is
overwritten. -/
def insertKey {S : Type} (k : String) (v : Json S) :
    List (String × Json S) → List (String × Json S)
  | [] => [(k, v)]
  | (k', v') :: rest =>
    if keyLt k k' then (k, v) :: (k', v') :: rest
    else if k = k' then (k, v) :: rest
    else (k', v') :: insertKey k v rest

/-- Search of a member by key in a member list. -/
def lookupKey {S : Type} (k : String) : List (String × Json S) → Option (Json S)
  | [] => none
  | (k', v') :: rest => if k = k' then some v' else lookupKey k rest

namespace Json

variable {S : Type}

/-- Read-only member access: the member of an object with that key, if there is one. -/
def get? : Json S → String → Option (Json S)
  | obj kvs, k => lookupKey k kvs
  | _, _ => none

/-- The list of keys of an object, in the order of the document. -/
def keys : Json S → List String
  | obj kvs => kvs.map Prod.fst
  | _ => []

/-- The elements of an array. -/
def elems? : Json S → Option (List (Json S))
  | arr xs => some xs
  | _ => none

/-- The call `j.push_back(v)`: `null` becomes an array first; any other non-array throws. -/
def pushBack : Json S → Json S → Except Fault (Json S)
  | null, v => .ok (arr [v])
  | arr xs, v => .ok (arr (xs ++ [v]))
  | _, _ => .error .jsonType

/-- The value designated by `j[k]` (non-const `operator[]`): `null` becomes an object first, a
missing member is created as `null`; any other non-object throws. -/
def member : Json S → String → Except Fault (Json S)
  | null, _ => .ok null
  | obj kvs, k => .ok ((lookupKey k kvs).getD null)
  | _, _ => .error .jsonType

/-- The assignment `j[k] = v`. -/
def set : Json S → String → Json S → Except Fault (Json S)
  | null, k, v => .ok (obj [(k, v)])
  | obj kvs, k, v => .ok (obj (insertKey k v kvs))
  | _, _, _ => .error .jsonType

/-- The statement `j[k].push_back(v)`. -/
def pushBackAt (j : Json S) (k : String) (v : Json S) : Except Fault (Json S) := do
  let cur ← j.member k
  let cur ← cur.pushBack v
  j.set k cur

end Json

/-! ## The converter -/

section Converter

variable {S P : Type} [PoseLib P S]

/-- The function `se3ToJson`: the rows of `se3.matrix()`, each row an array of its entries. -/
def se3ToJson (se3 : P) : Except Fault (Json S) :=
  let tm := PoseLib.matrix se3
  (List.finRange 4).foldlM
    (fun rows r => do
      let row ← (List.finRange 4).foldlM (fun row c => row.pushBack (Json.num (tm r c))) Json.null
      rows.pushBack row)
    Json.null

/-- The coefficient access `params(j)`.  The source does not check the index: an index
outside the vector is undefined behaviour, or a failed assertion of the matrix library.  The
result `error` marks that case; it is not an error the source raises. -/
def paramAt (params : List S) (j : Nat) : Except Fault S :=
  match params[j]? with
  | some v => .ok v
  | none => .error .paramIndex

/-- The loop `for (int j = 4; j < 8; j++)` that prints the distortion coefficients. -/
def distortionLoop (params : List S) : Except Fault (List (Out S)) :=
  (List.range' 4 4).foldlM
    (fun out j => do
      let v ← paramAt params j
      pure (out ++ [Out.val v] ++
        (if j = 7 then [Out.text ";", Out.endl] else [Out.text ","])))
    []

/-- The five report lines of a `kb4` camera, for the given key texts. -/
def intrinsicsLines (fx fy cx cy dc : String) (params : List S) :
    Except Fault (List (Out S)) := do
  let p0 ← paramAt params 0
  let p1 ← paramAt params 1
  let p2 ← paramAt params 2
  let p3 ← paramAt params 3
  let d ← distortionLoop params
  pure ([Out.text fx, Out.val p0, Out.text ";", Out.endl,
         Out.text fy, Out.val p1, Out.text ";", Out.endl,
         Out.text cx, Out.val p2, Out.text ";", Out.endl,
         Out.text cy, Out.val p3, Out.text ";", Out.endl,
         Out.text dc] ++ d)

/-- The report lines of a `kb4` camera: plain keys for index 0, `second` keys otherwise. -/
def kb4Report (i : Nat) (params : List S) : Except Fault (List (Out S)) :=
  if i = 0 then
    intrinsicsLines "focalLengthX " "focalLengthY " "principalPointX " "principalPointY "
      "distortionCoeffs " params
  else
    intrinsicsLines "secondFocalLengthX " "secondFocalLengthY " "secondPrincipalPointX "
      "secondPrincipalPointY " "secondDistortionCoeffs " params

/-- The object `modelJson` of the `kb4` branch. -/
def kb4Model (params : List S) : Except Fault (Json S) := do
  let m : Json S := Json.null
  let m ← m.set "name" (Json.str "kannala-brandt4")
  let m ← m.set "focalLengthX" (Json.num (← paramAt params 0))
  let m ← m.set "focalLengthY" (Json.num (← paramAt params 1))
  let m ← m.set "principalPointX" (Json.num (← paramAt params 2))
  let m ← m.set "principalPointY" (Json.num (← paramAt params 3))
  let d4 ← paramAt params 4
  let d5 ← paramAt params 5
  let d6 ← paramAt params 6
  let d7 ← paramAt params 7
  m.set "distortionCoefficient" (Json.arr [Json.num d4, Json.num d5, Json.num d6, Json.num d7])

/-- The object `modelJson` of the `ds` branch. -/
def dsModel (params : List S) : Except Fault (Json S) := do
  let m : Json S := Json.null
  let m ← m.set "name" (Json.str "doublesphere")
  let m ← m.set "focalLengthX" (Json.num (← paramAt params 0))
  let m ← m.set "focalLengthY" (Json.num (← paramAt params 1))
  let m ← m.set "principalPointX" (Json.num (← paramAt params 2))
  let m ← m.set "principalPointY" (Json.num (← paramAt params 3))
  let m ← m.set "xi" (Json.num (← paramAt params 4))
  m.set "alpha" (Json.num (← paramAt params 5))

/-- What the dispatch on the model name leaves behind: the camera object so far, whether
`fisheye` was set, and the text printed. -/
structure Dispatch (S : Type) where
  cameraJson : Json S
  setsFisheye : Bool
  out : List (Out S)

/-- The dispatch `if (modelName == "kb4") ... else if (modelName == "ds") ...` applied to a
fresh `cameraJson`. -/
def modelDispatch (i : Nat) (intr : Intrinsics S) : Except Fault (Dispatch S) := do
  let params := intr.getParam
  let modelName := intr.getName
  let cameraJson : Json S := Json.null
  if modelName = "kb4" then
    let out ← kb4Report i params
    let modelJson ← kb4Model params
    let cameraJson ← cameraJson.pushBackAt "models" modelJson
    pure ⟨cameraJson, true, out⟩
  else if modelName = "ds" then
    let modelJson ← dsModel params
    let cameraJson ← cameraJson.pushBackAt "models" modelJson
    pure ⟨cameraJson, false, []⟩
  else
    pure ⟨cameraJson, false, []⟩

/-- The loop over the knots: `cameraJson["vignette"].push_back(knot(0))` for each knot. -/
def vignetteLoop (cameraJson : Json S) (vig : Vignette S) : Except Fault (Json S) :=
  vig.getKnots.foldlM (fun cj knot => cj.pushBackAt "vignette" (Json.num knot.first)) cameraJson

/-- The report line of the extrinsic matrix: key, then the entries with the column loop
outside and the row loop inside. -/
def matrixReport (i : Nat) (tm : Matrix (Fin 4) (Fin 4) S) : List (Out S) :=
  [Out.text (if i = 0 then "imuToCameraMatrix " else "secondImuToCameraMatrix ")] ++
  (List.finRange 4).foldl
    (fun out col =>
      (List.finRange 4).foldl
        (fun out row =>
          out ++ [Out.val (tm row col)] ++
            (if row = 3 ∧ col = 3 then [Out.text ";", Out.endl] else [Out.text ","]))
        out)
    []

/-- What one iteration of the camera loop produces before it touches the loop variables. -/
structure CameraResult (S : Type) where
  cameraJson : Json S
  setsFisheye : Bool
  out : List (Out S)

instance {S : Type} : Inhabited (CameraResult S) := ⟨⟨Json.null, false, []⟩⟩

/-- The body of the camera loop for index `i`, up to the final `cameraJson`. -/
def cameraBody (calib : Calibration S P) (i : Nat) : Except Fault (CameraResult S) := do
  let intr ← match calib.intrinsics[i]? with
    | some x => Except.ok x
    | none => Except.error Fault.intrinsicsIndex
  let d ← modelDispatch i intr
  let vig ← match calib.vignette[i]? with
    | some x => Except.ok x
    | none => Except.error Fault.vignetteIndex
  let cameraJson ← vignetteLoop d.cameraJson vig
  let pose ← match calib.T_i_c[i]? with
    | some x => Except.ok x
    | none => Except.error Fault.poseIndex
  let tm := PoseLib.matrix (PoseLib.inverse pose)
  let out := d.out ++ matrixReport i tm
  let m ← se3ToJson (PoseLib.inverse pose)
  let cameraJson ← cameraJson.set "imuToCamera" m
  pure ⟨cameraJson, d.setsFisheye, out⟩

/-- The variables that live across the iterations of the camera loop. -/
structure LoopState (S : Type) where
  calibJson : Json S
  fisheye : Bool
  out : List (Out S)

/-- One iteration of the camera loop. -/
def cameraIteration (calib : Calibration S P) (st : LoopState S) (i : Nat) :
    Except Fault (LoopState S) := do
  let r ← cameraBody calib i
  let calibJson ← st.calibJson.pushBackAt "cameras" r.cameraJson
  pure ⟨calibJson, st.fisheye || r.setsFisheye, st.out ++ r.out⟩

/-- The camera loop `for (size_t i = 0; i < calib.T_i_c.size(); i++)`, started with an empty
`calibJson` and `fisheye = false`. -/
def cameraLoop (calib : Calibration S P) : Except Fault (LoopState S) :=
  (List.range calib.T_i_c.length).foldlM (cameraIteration calib) ⟨Json.null, false, []⟩

/-- The object `gyroJson`. -/
def gyroBlock (calib : Calibration S P) : Except Fault (Json S) := do
  let g : Json S := Json.null
  let g ← g.set "updateRate" (Json.int calib.imu_update_rate)
  let g ← g.set "noiseStd" (Json.arr [Json.num (calib.gyro_noise_std 0),
    Json.num (calib.gyro_noise_std 1), Json.num (calib.gyro_noise_std 2)])
  let g ← g.set "biasStd" (Json.arr [Json.num (calib.gyro_bias_std 0),
    Json.num (calib.gyro_bias_std 1), Json.num (calib.gyro_bias_std 2)])
  (List.finRange 12).foldlM
    (fun g i => g.pushBackAt "calibrationBias" (Json.num (calib.calib_gyro_bias i))) g

/-- The object `accJson`. -/
def accBlock (calib : Calibration S P) : Except Fault (Json S) := do
  let a : Json S := Json.null
  let a ← a.set "noiseStd" (Json.arr [Json.num (calib.accel_noise_std 0),
    Json.num (calib.accel_noise_std 1), Json.num (calib.accel_noise_std 2)])
  let a ← a.set "biasStd" (Json.arr [Json.num (calib.accel_bias_std 0),
    Json.num (calib.accel_bias_std 1), Json.num (calib.accel_bias_std 2)])
  (List.finRange 9).foldlM
    (fun a i => a.pushBackAt "calibrationBias" (Json.num (calib.calib_accel_bias i))) a

/-- What the converter has produced when it reaches the output statement. -/
structure Converted (S : Type) where
  /-- The document `calibJson` that is dumped to the output file. -/
  calibJson : Json S
  /-- The local variable `fisheye`. -/
  fisheye : Bool
  /-- The text printed from the camera loop on. -/
  out : List (Out S)

/-- The converter from the declaration of `calibJson` to the complete document: the camera
loop, the `fisheyeCamera` report line, and the gyroscope and accelerometer blocks. -/
def convert (calib : Calibration S P) : Except Fault (Converted S) := do
  let st ← cameraLoop calib
  let out := st.out ++ (if st.fisheye then [Out.text "fisheyeCamera true;", Out.endl] else [])
  let gyroJson ← gyroBlock calib
  let calibJson ← st.calibJson.set "gyroscope" gyroJson
  let accJson ← accBlock calib
  let calibJson ← calibJson.set "accelerometer" accJson
  pure ⟨calibJson, st.fisheye, out⟩

/-- The text printed right after the record is loaded: one line per pose, then the line with
the number of intrinsics. -/
def loadReport (calib : Calibration S P) : List (Out S) :=
  calib.T_i_c.foldl
    (fun out pose => out ++ [Out.text "T_i_c ", Out.mat (PoseLib.matrix pose), Out.endl]) [] ++
  [Out.text "Loaded camera with ", Out.size calib.intrinsics.length, Out.text " cameras",
    Out.endl]

/-- What the program finds when it opens `calib_path`. -/
inductive Input (S P : Type) where
  /-- The stream is not open. -/
  | notOpen
  /-- The stream is open and the archive throws while it reads the record. -/
  | corrupt
  /-- The stream is open and the archive yields the record. -/
  | loaded (calib : Calibration S P)

/-- How a run of the program ends. -/
inductive Exit where
  /-- The function `main` returns the given code. -/
  | returned (code : Int)
  /-- The call `std::abort()`. -/
  | aborted
  /-- An exception of the archive leaves `main`. -/
  | uncaught
  /-- The conversion has reached the fault `f`.  For an access outside a container the
  behaviour of the source is undefined from there on, and the run records what happened
  before that access only. -/
  | faulted (f : Fault)
  deriving DecidableEq, Repr

/-- What a run of the program leaves behind. -/
structure Run (S : Type) where
  stdout : List (Out S)
  stderr : List (Out S)
  /-- The document written to `output_path`, if the output statement is reached. -/
  outputFile : Option (Json S)
  exit : Exit

/-- The function `main` after the command line is parsed, for a given answer of
`basalt::fs::exists(calib_path)` and a given outcome of opening and reading the input.  When
the conversion reaches a fault, the run records the state before the faulty access: the text
printed on load (the text of the camera loop is not recorded) and no output file, the output
statement standing after the conversion.  What the source does after an access outside a
container is undefined and is not described. -/
def main (calib_path : String) (pathExists : Bool) (input : Input S P) : Run S :=
  let err : List (Out S) :=
    if pathExists then [] else [Out.text "No file found ", Out.text calib_path, Out.endl]
  match input with
  | Input.notOpen =>
    ⟨[], err ++ [Out.text "could not load camera calibration ", Out.text calib_path, Out.endl],
      none, Exit.aborted⟩
  | Input.corrupt => ⟨[], err, none, Exit.uncaught⟩
  | Input.loaded calib =>
    let out := loadReport calib
    match convert calib with
    | Except.error f => ⟨out, err, none, Exit.faulted f⟩
    | Except.ok r => ⟨out ++ r.out, err, some r.calibJson, Exit.returned 0⟩

end Converter

/-! ## Poses as rigid transforms -/

section Poses

variable {S : Type}

/-- Modelled from the spec: the pose type `Sophus::SE3<double>` belongs to a library whose code
is not part of the sources.  A pose is a rigid transform, a rotation matrix `R` together with
a translation `t`, acting as `x ↦ R x + t`. -/
structure SE3 (S : Type) where
  rotation : Matrix (Fin 3) (Fin 3) S
  translation : Fin 3 → S

/-- Modelled from the spec: `inverse()` of the absent pose library, the inverse rigid
transform, with rotation `Rᵀ` and translation `Rᵀ (t * -1)`. -/
def SE3.inverse [Ring S] (p : SE3 S) : SE3 S :=
  ⟨p.rotation.transpose, p.rotation.transpose.mulVec (fun k => p.translation k * (-1))⟩

/-- Modelled from the spec: `matrix()` of the absent pose library, the homogeneous 4x4 matrix
with the rotation in the upper left block, the translation in the last column, and last row
`0 0 0 1`. -/
def SE3.matrix [Zero S] [One S] (p : SE3 S) : Matrix (Fin 4) (Fin 4) S :=
  !![p.rotation 0 0, p.rotation 0 1, p.rotation 0 2, p.translation 0;
     p.rotation 1 0, p.rotation 1 1, p.rotation 1 2, p.translation 1;
     p.rotation 2 0, p.rotation 2 1, p.rotation 2 2, p.translation 2;
     0, 0, 0, 1]

instance [Ring S] : PoseLib (SE3 S) S := ⟨SE3.inverse, SE3.matrix⟩

/-- The inverse transform matrix in the words of the specification: the block matrix with
`Rᵀ` in the upper left block, `-Rᵀ t` in the last column, and last row `0 0 0 1`. -/
def inverseTransformMatrix [Ring S] (R : Matrix (Fin 3) (Fin 3) S) (t : Fin 3 → S) :
    Matrix (Fin 4) (Fin 4) S :=
  !![R 0 0, R 1 0, R 2 0, -(R 0 0 * t 0 + R 1 0 * t 1 + R 2 0 * t 2);
     R 0 1, R 1 1, R 2 1, -(R 0 1 * t 0 + R 1 1 * t 1 + R 2 1 * t 2);
     R 0 2, R 1 2, R 2 2, -(R 0 2 * t 0 + R 1 2 * t 1 + R 2 2 * t 2);
     0, 0, 0, 1]

end Poses

/-! ## Vocabulary of the statements -/

section Vocabulary

variable {S P : Type}

/-- A 4x4 matrix written as a JSON list of 4 rows of 4 scalars (rows outside, columns
inside). -/
def rowMajor (m : Matrix (Fin 4) (Fin 4) S) : Json S :=
  Json.arr ((List.finRange 4).map fun r =>
    Json.arr ((List.finRange 4).map fun c => Json.num (m r c)))

/-- The parameter vector is long enough for the coefficient accesses of its model branch:
8 coefficients for `kb4`, 6 for `ds`, none for any other name. -/
def paramsInRange (intr : Intrinsics S) : Bool :=
  if intr.getName = "kb4" then decide (8 ≤ intr.getParam.length)
  else if intr.getName = "ds" then decide (6 ≤ intr.getParam.length)
  else true

/-- Every access of the camera loop is inside its container: the intrinsics and vignette
lists are at least as long as the pose list, and the parameter vector of each processed
camera is long enough for its branch. -/
def inRange (calib : Calibration S P) : Bool :=
  decide (calib.T_i_c.length ≤ calib.intrinsics.length) &&
  decide (calib.T_i_c.length ≤ calib.vignette.length) &&
  (calib.intrinsics.take calib.T_i_c.length).all paramsInRange

/-- The members of a finished camera object, in the order of the document: `imuToCamera`,
then `models` if the dispatch created it, then `vignette` if there is at least one knot. -/
def cameraMembers (models : Option (Json S)) (knots : List (Knot S)) (m : Json S) :
    List (String × Json S) :=
  [("imuToCamera", m)] ++
  (match models with
   | some x => [("models", x)]
   | none => []) ++
  (match knots with
   | [] => []
   | k :: ks => [("vignette", Json.arr ((k :: ks).map fun knot => Json.num knot.first))])

/-- The value of `calibJson` after the camera loop has pushed the given camera objects. -/
def camerasJson (cams : List (Json S)) : Json S :=
  match cams with
  | [] => Json.null
  | c :: cs => Json.obj [("cameras", Json.arr (c :: cs))]

/-- The object built for a `ds` camera, members in the order of the document. -/
def dsObject (p0 p1 p2 p3 p4 p5 : S) : Json S :=
  Json.obj [("alpha", Json.num p5), ("focalLengthX", Json.num p0), ("focalLengthY", Json.num p1),
    ("name", Json.str "doublesphere"), ("principalPointX", Json.num p2),
    ("principalPointY", Json.num p3), ("xi", Json.num p4)]

/-- The object built for a `kb4` camera, members in the order of the document. -/
def kb4Object (p0 p1 p2 p3 p4 p5 p6 p7 : S) : Json S :=
  Json.obj [("distortionCoefficient",
      Json.arr [Json.num p4, Json.num p5, Json.num p6, Json.num p7]),
    ("focalLengthX", Json.num p0), ("focalLengthY", Json.num p1),
    ("name", Json.str "kannala-brandt4"), ("principalPointX", Json.num p2),
    ("principalPointY", Json.num p3)]

/-- The report lines printed for a `kb4` camera at index `i`. -/
def kb4Lines (i : Nat) (p0 p1 p2 p3 p4 p5 p6 p7 : S) : List (Out S) :=
  if i = 0 then
    [Out.text "focalLengthX ", Out.val p0, Out.text ";", Out.endl,
     Out.text "focalLengthY ", Out.val p1, Out.text ";", Out.endl,
     Out.text "principalPointX ", Out.val p2, Out.text ";", Out.endl,
     Out.text "principalPointY ", Out.val p3, Out.text ";", Out.endl,
     Out.text "distortionCoeffs ", Out.val p4, Out.text ",", Out.val p5, Out.text ",",
     Out.val p6, Out.text ",", Out.val p7, Out.text ";", Out.endl]
  else
    [Out.text "secondFocalLengthX ", Out.val p0, Out.text ";", Out.endl,
     Out.text "secondFocalLengthY ", Out.val p1, Out.text ";", Out.endl,
     Out.text "secondPrincipalPointX ", Out.val p2, Out.text ";", Out.endl,
     Out.text "secondPrincipalPointY ", Out.val p3, Out.text ";", Out.endl,
     Out.text "secondDistortionCoeffs ", Out.val p4, Out.text ",", Out.val p5, Out.text ",",
     Out.val p6, Out.text ",", Out.val p7, Out.text ";", Out.endl]

/-- The gyroscope object, members in the order of the document. -/
def gyroObject (calib : Calibration S P) : Json S :=
  Json.obj [
    ("biasStd", Json.arr [Json.num (calib.gyro_bias_std 0), Json.num (calib.gyro_bias_std 1),
      Json.num (calib.gyro_bias_std 2)]),
    ("calibrationBias",
      Json.arr ((List.finRange 12).map fun i => Json.num (calib.calib_gyro_bias i))),
    ("noiseStd", Json.arr [Json.num (calib.gyro_noise_std 0), Json.num (calib.gyro_noise_std 1),
      Json.num (calib.gyro_noise_std 2)]),
    ("updateRate", Json.int calib.imu_update_rate)]

/-- The accelerometer object, members in the order of the document. -/
def accObject (calib : Calibration S P) : Json S :=
  Json.obj [
    ("biasStd", Json.arr [Json.num (calib.accel_bias_std 0), Json.num (calib.accel_bias_std 1),
      Json.num (calib.accel_bias_std 2)]),
    ("calibrationBias",
      Json.arr ((List.finRange 9).map fun i => Json.num (calib.calib_accel_bias i))),
    ("noiseStd", Json.arr [Json.num (calib.accel_noise_std 0),
      Json.num (calib.accel_noise_std 1), Json.num (calib.accel_noise_std 2)])]

/-- The members of the finished document, in the order of the document: `accelerometer`,
then `cameras` if the loop pushed at least one camera object, then `gyroscope`. -/
def documentMembers (calib : Calibration S P) (cams : List (Json S)) :
    List (String × Json S) :=
  [("accelerometer", accObject calib)] ++
  (match cams with
   | [] => []
   | c :: cs => [("cameras", Json.arr (c :: cs))]) ++
  [("gyroscope", gyroObject calib)]

/-- The scalar members of an object, with their keys, in the order of the document. -/
def scalarFields (j : Json S) : List (String × S) :=
  match j with
  | Json.obj kvs => kvs.filterMap fun kv =>
      match kv.2 with
      | Json.num x => some (kv.1, x)
      | _ => none
  | _ => []

/-- The result of the loop body for index `i`, when the body completes. -/
def bodyOf [PoseLib P S] (calib : Calibration S P) (i : Nat) : CameraResult S :=
  match cameraBody calib i with
  | Except.ok r => r
  | Except.error _ => default

end Vocabulary

/-! ## Sample records -/

section Samples

/-- A pose with the identity rotation and the given translation. -/
def translationPose {S : Type} [Zero S] [One S] (x y z : S) : SE3 S :=
  ⟨1, ![x, y, z]⟩

/-- The end-to-end scenario of the specification: camera 0 is a double-sphere camera with the
identity pose, camera 1 a Kannala-Brandt camera translated by `(0, 0, 0.1)`; the noise
standard deviations are `0.01`.  Values the scenario leaves open are chosen here. -/
def scenario : Calibration ℚ (SE3 ℚ) where
  T_i_c := [translationPose 0 0 0, translationPose 0 0 (1/10)]
  intrinsics := [⟨"ds", [500, 500, 320, 240, -(2/10), 6/10]⟩,
    ⟨"kb4", [300, 300, 160, 120, 1/10, 1/100, 1/1000, 1/10000]⟩]
  vignette := [⟨[⟨1, []⟩, ⟨9/10, []⟩]⟩, ⟨[⟨1, []⟩]⟩]
  imu_update_rate := 200
  gyro_noise_std := fun _ => 1/100
  gyro_bias_std := fun _ => 1/1000
  accel_noise_std := fun _ => 1/100
  accel_bias_std := fun _ => 1/1000
  calib_gyro_bias := fun _ => 0
  calib_accel_bias := fun _ => 0

/-- A record with given poses, intrinsics and vignettes and a plain inertial part. -/
def rig (poses : List (SE3 ℤ)) (intrinsics : List (Intrinsics ℤ)) (vignette : List (Vignette ℤ))
    (rate : Int) : Calibration ℤ (SE3 ℤ) where
  T_i_c := poses
  intrinsics := intrinsics
  vignette := vignette
  imu_update_rate := rate
  gyro_noise_std := fun _ => 1
  gyro_bias_std := fun _ => 2
  accel_noise_std := fun _ => 3
  accel_bias_std := fun _ => 4
  calib_gyro_bias := fun i => i.val
  calib_accel_bias := fun i => 10 + i.val

/-- A record without any camera. -/
def noCameras : Calibration ℤ (SE3 ℤ) := rig [] [] [] 100

/-- A second record without any camera, with another update rate. -/
def idleRig : Calibration ℤ (SE3 ℤ) := rig [] [] [] 250

/-- A record with a single Kannala-Brandt camera. -/
def fisheyeRig : Calibration ℤ (SE3 ℤ) :=
  rig [translationPose 1 2 3] [⟨"kb4", [300, 301, 160, 120, 1, 2, 3, 4]⟩] [⟨[⟨7, []⟩]⟩] 100

/-- A record with a single double-sphere camera whose vignette has no knot. -/
def bareRig : Calibration ℤ (SE3 ℤ) :=
  rig [translationPose 0 0 0] [⟨"ds", [500, 501, 320, 240, 5, 6]⟩] [⟨[]⟩] 100

/-- A record with a single double-sphere camera turned by a quarter turn about the third
axis and translated by `(1, 2, 3)`. -/
def turnedRig : Calibration ℤ (SE3 ℤ) :=
  rig [⟨!![0, -1, 0; 1, 0, 0; 0, 0, 1], ![1, 2, 3]⟩] [⟨"ds", [500, 501, 320, 240, 5, 6]⟩]
    [⟨[⟨7, []⟩, ⟨8, []⟩]⟩] 100

/-- A record whose second camera has a model name the converter does not know. -/
def mixedRig : Calibration ℤ (SE3 ℤ) :=
  rig [translationPose 0 0 0, translationPose 1 2 3]
    [⟨"ds", [500, 501, 320, 240, 5, 6]⟩, ⟨"pinhole", [400, 401, 300, 200]⟩]
    [⟨[⟨7, []⟩]⟩, ⟨[⟨8, []⟩, ⟨9, []⟩]⟩] 100

end Samples

/-! ## Vocabulary of the report and of the later statements -/

section ReportVocabulary

variable {S P : Type}

/-- The scalars printed in a piece of output, in the order of printing. -/
def outValues (out : List (Out S)) : List S :=
  out.filterMap fun o =>
    match o with
    | Out.val x => some x
    | _ => none

/-- The key texts of a piece of output: the string literals printed, other than the
separators `,` and `;`, in the order of printing. -/
def outKeys (out : List (Out S)) : List String :=
  out.filterMap fun o =>
    match o with
    | Out.text s => if s = "," ∨ s = ";" then none else some s
    | _ => none

/-- The row-major flattening of a 4x4 matrix: rows outside, columns inside. -/
def rowMajorValues (m : Matrix (Fin 4) (Fin 4) S) : List S :=
  (List.finRange 4).flatMap fun r => (List.finRange 4).map fun c => m r c

/-- The scalars of a JSON list of lists of scalars, in the order of the document. -/
def Json.matrixValues (j : Json S) : List S :=
  match j with
  | Json.arr rows => rows.flatMap fun row =>
      match row with
      | Json.arr xs => xs.filterMap fun x =>
          match x with
          | Json.num v => some v
          | _ => none
      | _ => []
  | _ => []

/-- The extrinsic-matrix line in the words of the specification: the key, then 16 values, the
`k`-th being entry `(k mod 4, k div 4)`, each followed by a comma except the last, which is
followed by `;` and the end of the line. -/
def matrixLine (key : String) (m : Matrix (Fin 4) (Fin 4) S) : List (Out S) :=
  Out.text key ::
    (List.finRange 16).flatMap fun k =>
      [Out.val (m ⟨k.val % 4, Nat.mod_lt _ (by decide)⟩ ⟨k.val / 4, by omega⟩)] ++
        (if k.val = 15 then [Out.text ";", Out.endl] else [Out.text ","])

end ReportVocabulary

section SwapVocabulary

variable {S P : Type}

/-- The list with the entries at positions `i` and `j` exchanged; the list itself when a
position is outside it. -/
def swapAt {α : Type} (l : List α) (i j : Nat) : List α :=
  match l[i]?, l[j]? with
  | some a, some b => (l.set i b).set j a
  | _, _ => l

/-- The position from which `swapAt` takes the entry it puts at position `k`. -/
def swapIdx (i j k : Nat) : Nat :=
  if k = i then j else if k = j then i else k

/-- The record with the cameras at positions `i` and `j` exchanged: pose, intrinsics and
vignette move together. -/
def swapCameras (calib : Calibration S P) (i j : Nat) : Calibration S P :=
  { calib with
    T_i_c := swapAt calib.T_i_c i j
    intrinsics := swapAt calib.intrinsics i j
    vignette := swapAt calib.vignette i j }

/-- The output contains the line that consists of the key, one scalar and `;`. -/
def HasLine (out : List (Out S)) (key : String) (v : S) : Prop :=
  ∃ before after, out = before ++ [Out.text key, Out.val v, Out.text ";", Out.endl] ++ after

/-- The text token opens a `fisheyeCamera` line. -/
def mentionsFisheye (o : Out S) : Bool :=
  match o with
  | Out.text s => ("fisheyeCamera".data).isPrefixOf s.data
  | _ => false

end SwapVocabulary

section MoreSamples

/-- A record with one pose and two intrinsics and vignettes. -/
def spareRig : Calibration ℤ (SE3 ℤ) :=
  rig [translationPose 1 2 3]
    [⟨"kb4", [300, 301, 160, 120, 1, 2, 3, 4]⟩, ⟨"ds", [500, 501, 320, 240, 5, 6]⟩]
    [⟨[⟨7, []⟩]⟩, ⟨[⟨8, []⟩]⟩] 100

/-- A record with a double-sphere camera at index 0, a Kannala-Brandt camera at index 1 and
a double-sphere camera at index 2. -/
def blendRig : Calibration ℤ (SE3 ℤ) :=
  rig [translationPose 0 0 0, translationPose 1 2 3, translationPose 4 5 6]
    [⟨"ds", [500, 501, 320, 240, 5, 6]⟩, ⟨"kb4", [310, 311, 161, 121, 5, 6, 7, 8]⟩,
      ⟨"ds", [520, 521, 322, 242, 7, 8]⟩]
    [⟨[⟨7, []⟩]⟩, ⟨[⟨8, []⟩]⟩, ⟨[⟨9, []⟩]⟩] 100

/-- A record with two poses and the intrinsics of one camera only. -/
def lonelyRig : Calibration ℤ (SE3 ℤ) :=
  rig [translationPose 0 0 0, translationPose 1 2 3] [⟨"ds", [500, 501, 320, 240, 5, 6]⟩]
    [⟨[⟨7, []⟩]⟩, ⟨[⟨8, []⟩]⟩] 100

/-- A record with three Kannala-Brandt cameras. -/
def tripleRig : Calibration ℤ (SE3 ℤ) :=
  rig [translationPose 0 0 0, translationPose 1 2 3, translationPose 4 5 6]
    [⟨"kb4", [300, 301, 160, 120, 1, 2, 3, 4]⟩, ⟨"kb4", [310, 311, 161, 121, 5, 6, 7, 8]⟩,
      ⟨"kb4", [320, 321, 162, 122, 9, 10, 11, 12]⟩]
    [⟨[⟨7, []⟩]⟩, ⟨[⟨8, []⟩]⟩, ⟨[⟨9, []⟩]⟩] 100

end MoreSamples

section FisheyeVocabulary

variable {S : Type}

/-- No token of the output opens a `fisheyeCamera` line. -/
def noFisheye (out : List (Out S)) : Bool :=
  out.all fun o => !mentionsFisheye o

/-- The lines printed when the record is loaded, one per pose. -/
def poseLines {P : Type} [PoseLib P S] (poses : List P) : List (Out S) :=
  poses.flatMap fun pose => [Out.text "T_i_c ", Out.mat (PoseLib.matrix pose), Out.endl]

end FisheyeVocabulary

section CountVocabulary

/-- The number of coefficients the branch of a model name reads: 8 for `kb4`, 6 for `ds`,
none for any other name. -/
def expectedParams (name : String) : Nat :=
  if name = "kb4" then 8 else if name = "ds" then 6 else 0

/-- The fault is an access outside a container. -/
def Fault.isIndexFault (f : Fault) : Bool :=
  match f with
  | Fault.jsonType => false
  | _ => true

end CountVocabulary

/-! ## Auxiliary lemmas -/

section ModelLemmas
variable {S P : Type} [PoseLib P S]

theorem finRange_four : List.finRange 4 = [0, 1, 2, 3] := by decide

/-- The value of `se3ToJson`: the rows of the matrix, rows outside and columns inside. -/
theorem se3ToJson_eq (se3 : P) :
    se3ToJson se3 = Except.ok (Json.arr ((List.finRange 4).map fun r =>
      Json.arr ((List.finRange 4).map fun c => Json.num (PoseLib.matrix se3 r c)))) := by
  simp [se3ToJson, finRange_four, Json.pushBack, bind, Except.bind, pure, Except.pure]

theorem paramAt_of_getElem? {params : List S} {j : Nat} {v : S} (h : params[j]? = some v) :
    paramAt params j = Except.ok v := by
  simp [paramAt, h]

theorem dsModel_eq (p0 p1 p2 p3 p4 p5 : S) (rest : List S) :
    dsModel (p0 :: p1 :: p2 :: p3 :: p4 :: p5 :: rest) = Except.ok (Json.obj
      [("alpha", Json.num p5), ("focalLengthX", Json.num p0), ("focalLengthY", Json.num p1),
       ("name", Json.str "doublesphere"), ("principalPointX", Json.num p2),
       ("principalPointY", Json.num p3), ("xi", Json.num p4)]) := by
  simp +decide [dsModel, paramAt, Json.set, insertKey, bind, Except.bind]

theorem kb4Model_eq (p0 p1 p2 p3 p4 p5 p6 p7 : S) (rest : List S) :
    kb4Model (p0 :: p1 :: p2 :: p3 :: p4 :: p5 :: p6 :: p7 :: rest) = Except.ok (Json.obj
      [("distortionCoefficient", Json.arr [Json.num p4, Json.num p5, Json.num p6, Json.num p7]),
       ("focalLengthX", Json.num p0), ("focalLengthY", Json.num p1),
       ("name", Json.str "kannala-brandt4"), ("principalPointX", Json.num p2),
       ("principalPointY", Json.num p3)]) := by
  simp +decide [kb4Model, paramAt, Json.set, insertKey, bind, Except.bind]

end ModelLemmas

section JsonLemmas
variable {S : Type}

theorem codesLt_irrefl (l : List Nat) : codesLt l l = false := by
  induction l with
  | nil => rfl
  | cons a as ih => simp [codesLt, ih]

theorem keyLt_irrefl (k : String) : keyLt k k = false := codesLt_irrefl _

theorem lookupKey_insertKey_self (k : String) (v : Json S) (kvs : List (String × Json S)) :
    lookupKey k (insertKey k v kvs) = some v := by
  induction kvs with
  | nil => simp [insertKey, lookupKey]
  | cons kv rest ih =>
    obtain ⟨k', v'⟩ := kv
    by_cases h1 : keyLt k k' = true
    · simp [insertKey, h1, lookupKey]
    · by_cases h2 : k = k'
      · subst h2
        simp [insertKey, keyLt_irrefl, lookupKey]
      · simp [insertKey, h1, h2, lookupKey, ih]

theorem lookupKey_insertKey_other {k k2 : String} (hne : k2 ≠ k) (v : Json S)
    (kvs : List (String × Json S)) :
    lookupKey k2 (insertKey k v kvs) = lookupKey k2 kvs := by
  induction kvs with
  | nil => simp [insertKey, lookupKey, hne]
  | cons kv rest ih =>
    obtain ⟨k', v'⟩ := kv
    by_cases h1 : keyLt k k' = true
    · simp [insertKey, h1, lookupKey, hne]
    · by_cases h2 : k = k'
      · subst h2
        simp [insertKey, keyLt_irrefl, lookupKey, hne]
      · simp [insertKey, h1, h2, lookupKey, ih]

theorem insertKey_insertKey (k : String) (v w : Json S) (kvs : List (String × Json S)) :
    insertKey k w (insertKey k v kvs) = insertKey k w kvs := by
  induction kvs with
  | nil => simp [insertKey, keyLt_irrefl]
  | cons kv rest ih =>
    obtain ⟨k', v'⟩ := kv
    by_cases h1 : keyLt k k' = true
    · simp [insertKey, h1, keyLt_irrefl]
    · by_cases h2 : k = k'
      · subst h2
        simp [insertKey, keyLt_irrefl]
      · simp [insertKey, h1, h2, ih]

theorem pushBackAt_null (k : String) (v : Json S) :
    Json.null.pushBackAt k v = Except.ok (Json.obj [(k, Json.arr [v])]) := rfl

theorem pushBackAt_absent {k : String} {kvs : List (String × Json S)}
    (h : lookupKey k kvs = none) (v : Json S) :
    (Json.obj kvs).pushBackAt k v = Except.ok (Json.obj (insertKey k (Json.arr [v]) kvs)) := by
  simp [Json.pushBackAt, Json.member, h, Json.pushBack, Json.set, bind, Except.bind]

theorem pushBackAt_arr {k : String} {kvs : List (String × Json S)} {xs : List (Json S)}
    (h : lookupKey k kvs = some (Json.arr xs)) (v : Json S) :
    (Json.obj kvs).pushBackAt k v =
      Except.ok (Json.obj (insertKey k (Json.arr (xs ++ [v])) kvs)) := by
  simp [Json.pushBackAt, Json.member, h, Json.pushBack, Json.set, bind, Except.bind]

/-- Repeated `j[k].push_back(..)` on an object whose member `k` is already an array. -/
theorem foldlM_pushBackAt_arr {α : Type} (k : String) (f : α → Json S) (rest : List α) :
    ∀ (a : α) (kvs : List (String × Json S)) (xs : List (Json S)),
      lookupKey k kvs = some (Json.arr xs) →
      (a :: rest).foldlM (fun j a => Json.pushBackAt j k (f a)) (Json.obj kvs) =
        Except.ok (Json.obj (insertKey k (Json.arr (xs ++ (a :: rest).map f)) kvs)) := by
  induction rest with
  | nil =>
    intro a kvs xs h
    simp [pushBackAt_arr h, bind, Except.bind, pure, Except.pure]
  | cons b rest ih =>
    intro a kvs xs h
    rw [List.foldlM_cons, pushBackAt_arr h]
    simp only [bind, Except.bind]
    have := ih b _ _ (lookupKey_insertKey_self k (Json.arr (xs ++ [f a])) kvs)
    simp only [bind, Except.bind] at this
    rw [this, insertKey_insertKey]
    simp

/-- Repeated `j[k].push_back(..)` on an object without a member `k`. -/
theorem foldlM_pushBackAt_absent {α : Type} (k : String) (f : α → Json S) (a : α)
    (rest : List α) {kvs : List (String × Json S)} (h : lookupKey k kvs = none) :
    (a :: rest).foldlM (fun j a => Json.pushBackAt j k (f a)) (Json.obj kvs) =
      Except.ok (Json.obj (insertKey k (Json.arr ((a :: rest).map f)) kvs)) := by
  cases rest with
  | nil => simp [pushBackAt_absent h, bind, Except.bind, pure, Except.pure]
  | cons b rest =>
    rw [List.foldlM_cons, pushBackAt_absent h]
    simp only [bind, Except.bind]
    have := foldlM_pushBackAt_arr k f rest b _ _ (lookupKey_insertKey_self k (Json.arr [f a]) kvs)
    simp only [bind, Except.bind] at this
    rw [this, insertKey_insertKey]
    simp

/-- Repeated `j[k].push_back(..)` on a fresh `null` value. -/
theorem foldlM_pushBackAt_null {α : Type} (k : String) (f : α → Json S) (a : α)
    (rest : List α) :
    (a :: rest).foldlM (fun j a => Json.pushBackAt j k (f a)) (Json.null : Json S) =
      Except.ok (Json.obj [(k, Json.arr ((a :: rest).map f))]) := by
  cases rest with
  | nil => simp [pushBackAt_null, bind, Except.bind, pure, Except.pure]
  | cons b rest =>
    rw [List.foldlM_cons, pushBackAt_null]
    simp only [bind, Except.bind]
    have := foldlM_pushBackAt_arr k f rest b [(k, Json.arr [f a])] [f a] (by simp [lookupKey])
    simp only [bind, Except.bind] at this
    rw [this]
    simp [insertKey, keyLt_irrefl]
end JsonLemmas

section PoseLemmas
variable {S : Type}

/-- The matrix of the inverse pose is the inverse transform matrix of the specification. -/
theorem inverse_matrix_eq [Ring S] (R : Matrix (Fin 3) (Fin 3) S) (t : Fin 3 → S) :
    SE3.matrix (SE3.inverse ⟨R, t⟩) = inverseTransformMatrix R t := by
  ext r c
  fin_cases r <;> fin_cases c <;>
    simp [SE3.matrix, SE3.inverse, inverseTransformMatrix, Matrix.mulVec, Matrix.dotProduct,
      Fin.sum_univ_three, Matrix.transpose_apply]

/-- For an orthonormal rotation the inverse transform matrix is a left inverse of the pose
matrix. -/
theorem inverse_mul_pose [CommRing S] (R : Matrix (Fin 3) (Fin 3) S) (t : Fin 3 → S)
    (h : R.transpose * R = 1) :
    inverseTransformMatrix R t * SE3.matrix ⟨R, t⟩ = 1 := by
  have e : ∀ a b : Fin 3, R 0 a * R 0 b + R 1 a * R 1 b + R 2 a * R 2 b =
      (1 : Matrix (Fin 3) (Fin 3) S) a b := by
    intro a b
    have := congrFun (congrFun h a) b
    simpa [Matrix.mul_apply, Fin.sum_univ_three, Matrix.transpose_apply] using this
  ext r c
  fin_cases r <;> fin_cases c <;>
    simp [SE3.matrix, inverseTransformMatrix, Matrix.mul_apply, Fin.sum_univ_four]
  all_goals first | (rw [e]; simp [Matrix.one_apply]) | ring

theorem inverse_of_identity [Ring S] (t : Fin 3 → S) :
    inverseTransformMatrix (1 : Matrix (Fin 3) (Fin 3) S) t =
      !![1, 0, 0, -t 0; 0, 1, 0, -t 1; 0, 0, 1, -t 2; 0, 0, 0, 1] := by
  ext r c
  fin_cases r <;> fin_cases c <;> simp [inverseTransformMatrix, Matrix.one_apply]
end PoseLemmas

section BodyLemmas
variable {S P : Type} [PoseLib P S]

theorem vignetteLoop_null (vig : Vignette S) :
    vignetteLoop (Json.null : Json S) vig = Except.ok (match vig.getKnots with
      | [] => Json.null
      | k :: ks => Json.obj [("vignette", Json.arr ((k :: ks).map fun knot => Json.num knot.first))]) := by
  unfold vignetteLoop
  cases vig.getKnots with
  | nil => rfl
  | cons k ks => exact foldlM_pushBackAt_null "vignette" (fun knot => Json.num knot.first) k ks

theorem vignetteLoop_models (x : Json S) (vig : Vignette S) :
    vignetteLoop (Json.obj [("models", x)]) vig = Except.ok (match vig.getKnots with
      | [] => Json.obj [("models", x)]
      | k :: ks => Json.obj [("models", x),
          ("vignette", Json.arr ((k :: ks).map fun knot => Json.num knot.first))]) := by
  unfold vignetteLoop
  cases vig.getKnots with
  | nil => rfl
  | cons k ks =>
    rw [foldlM_pushBackAt_absent "vignette" (fun knot => Json.num knot.first) k ks
      (by simp [lookupKey])]
    simp +decide [insertKey]

/-- The camera object built by the loop body, from the outcome of the model dispatch. -/
theorem cameraBody_eq {calib : Calibration S P} {i : Nat} {intr : Intrinsics S}
    {vig : Vignette S} {pose : P} {d : Dispatch S}
    (hi : calib.intrinsics[i]? = some intr) (hv : calib.vignette[i]? = some vig)
    (hp : calib.T_i_c[i]? = some pose) (hd : modelDispatch i intr = Except.ok d)
    (hshape : d.cameraJson = Json.null ∨ ∃ x, d.cameraJson = Json.obj [("models", x)]) :
    cameraBody calib i = Except.ok
      ⟨Json.obj (cameraMembers (d.cameraJson.get? "models") vig.getKnots
          (rowMajor (PoseLib.matrix (PoseLib.inverse pose)))),
        d.setsFisheye, d.out ++ matrixReport i (PoseLib.matrix (PoseLib.inverse pose))⟩ := by
  unfold cameraBody
  simp only [hi, hv, hp, hd, bind, Except.bind, se3ToJson_eq]
  rcases hshape with h | ⟨x, h⟩
  · rw [h, vignetteLoop_null]
    cases vig.getKnots with
    | nil => simp [Json.set, Json.get?, cameraMembers, rowMajor, pure, Except.pure]
    | cons k ks => simp +decide [Json.set, Json.get?, cameraMembers, rowMajor, pure, Except.pure, insertKey]
  · rw [h, vignetteLoop_models]
    cases vig.getKnots with
    | nil => simp +decide [Json.set, Json.get?, cameraMembers, rowMajor, pure, Except.pure, insertKey, lookupKey]
    | cons k ks => simp +decide [Json.set, Json.get?, cameraMembers, rowMajor, pure, Except.pure, insertKey, lookupKey]
end BodyLemmas

section DispatchLemmas
variable {S P : Type}

theorem exists_six {l : List S} (h : 6 ≤ l.length) :
    ∃ p0 p1 p2 p3 p4 p5 rest, l = p0 :: p1 :: p2 :: p3 :: p4 :: p5 :: rest := by
  match l, h with
  | p0 :: p1 :: p2 :: p3 :: p4 :: p5 :: rest, _ => exact ⟨p0, p1, p2, p3, p4, p5, rest, rfl⟩

theorem exists_eight {l : List S} (h : 8 ≤ l.length) :
    ∃ p0 p1 p2 p3 p4 p5 p6 p7 rest, l = p0 :: p1 :: p2 :: p3 :: p4 :: p5 :: p6 :: p7 :: rest := by
  match l, h with
  | p0 :: p1 :: p2 :: p3 :: p4 :: p5 :: p6 :: p7 :: rest, _ =>
    exact ⟨p0, p1, p2, p3, p4, p5, p6, p7, rest, rfl⟩

theorem kb4Report_eq (i : Nat) (p0 p1 p2 p3 p4 p5 p6 p7 : S) (rest : List S) :
    kb4Report i (p0 :: p1 :: p2 :: p3 :: p4 :: p5 :: p6 :: p7 :: rest) =
      Except.ok (kb4Lines i p0 p1 p2 p3 p4 p5 p6 p7) := by
  by_cases h : i = 0 <;>
  simp [kb4Report, kb4Lines, h, intrinsicsLines, distortionLoop, paramAt, bind, Except.bind, pure,
    Except.pure, List.range']

theorem modelDispatch_kb4 (i : Nat) (p0 p1 p2 p3 p4 p5 p6 p7 : S) (rest : List S) :
    modelDispatch i ⟨"kb4", p0 :: p1 :: p2 :: p3 :: p4 :: p5 :: p6 :: p7 :: rest⟩ =
      Except.ok ⟨Json.obj [("models", Json.arr [kb4Object p0 p1 p2 p3 p4 p5 p6 p7])], true,
        kb4Lines i p0 p1 p2 p3 p4 p5 p6 p7⟩ := by
  simp [modelDispatch, kb4Report_eq, kb4Model_eq, pushBackAt_null, bind, Except.bind, pure,
    Except.pure, kb4Object]

theorem modelDispatch_ds (i : Nat) (p0 p1 p2 p3 p4 p5 : S) (rest : List S) :
    modelDispatch i ⟨"ds", p0 :: p1 :: p2 :: p3 :: p4 :: p5 :: rest⟩ =
      Except.ok ⟨Json.obj [("models", Json.arr [dsObject p0 p1 p2 p3 p4 p5])], false, []⟩ := by
  simp [modelDispatch, dsModel_eq, pushBackAt_null, bind, Except.bind, pure,
    Except.pure, dsObject]

theorem modelDispatch_other (i : Nat) (intr : Intrinsics S) (h1 : intr.getName ≠ "kb4")
    (h2 : intr.getName ≠ "ds") :
    modelDispatch i intr = Except.ok ⟨Json.null, false, []⟩ := by
  simp [modelDispatch, h1, h2, pure, Except.pure]

theorem modelDispatch_ok (i : Nat) (intr : Intrinsics S) (h : paramsInRange intr = true) :
    ∃ d, modelDispatch i intr = Except.ok d ∧
      (d.cameraJson = Json.null ∨ ∃ x, d.cameraJson = Json.obj [("models", x)]) ∧
      d.setsFisheye = decide (intr.getName = "kb4") := by
  obtain ⟨name, params⟩ := intr
  by_cases h1 : name = "kb4"
  · subst h1
    simp [paramsInRange] at h
    obtain ⟨p0, p1, p2, p3, p4, p5, p6, p7, rest, rfl⟩ := exists_eight h
    exact ⟨_, modelDispatch_kb4 i _ _ _ _ _ _ _ _ _, Or.inr ⟨_, rfl⟩, by simp⟩
  · by_cases h2 : name = "ds"
    · subst h2
      simp [paramsInRange] at h
      obtain ⟨p0, p1, p2, p3, p4, p5, rest, rfl⟩ := exists_six h
      exact ⟨_, modelDispatch_ds i _ _ _ _ _ _ _, Or.inr ⟨_, rfl⟩, by simp⟩
    · exact ⟨_, modelDispatch_other i _ h1 h2, Or.inl rfl, by simp [h1]⟩

theorem inRange_iff (calib : Calibration S P) :
    inRange calib = true ↔
      calib.T_i_c.length ≤ calib.intrinsics.length ∧
      calib.T_i_c.length ≤ calib.vignette.length ∧
      ∀ i intr, i < calib.T_i_c.length → calib.intrinsics[i]? = some intr →
        paramsInRange intr = true := by
  simp only [inRange, Bool.and_eq_true, decide_eq_true_eq, List.all_eq_true, and_assoc]
  refine and_congr_right fun h1 => and_congr_right fun _ => ?_
  constructor
  · intro h i intr hi hget
    apply h
    rw [List.mem_iff_getElem?]
    exact ⟨i, by rw [List.getElem?_take]; simp [hi, hget]⟩
  · intro h intr hmem
    rw [List.mem_iff_getElem?] at hmem
    obtain ⟨i, hi⟩ := hmem
    rw [List.getElem?_take] at hi
    by_cases hlt : i < calib.T_i_c.length
    · simp [hlt] at hi
      exact h i intr hlt hi
    · simp [hlt] at hi
end DispatchLemmas

section BlockLemmas
variable {S P : Type}

theorem finRange_twelve : List.finRange 12 = [0, 1, 2, 3, 4, 5, 6, 7, 8, 9, 10, 11] := by decide
theorem finRange_nine : List.finRange 9 = [0, 1, 2, 3, 4, 5, 6, 7, 8] := by decide

theorem gyroBlock_eq (calib : Calibration S P) : gyroBlock calib = Except.ok (gyroObject calib) := by
  simp only [gyroBlock, Json.set, bind, Except.bind, finRange_twelve]
  rw [foldlM_pushBackAt_absent "calibrationBias" _ _ _ (by simp +decide [insertKey, lookupKey])]
  simp +decide [insertKey, gyroObject, finRange_twelve]

theorem accBlock_eq (calib : Calibration S P) : accBlock calib = Except.ok (accObject calib) := by
  simp only [accBlock, Json.set, bind, Except.bind, finRange_nine]
  rw [foldlM_pushBackAt_absent "calibrationBias" _ _ _ (by simp +decide [insertKey, lookupKey])]
  simp +decide [insertKey, accObject, finRange_nine]

theorem lookup_document (calib : Calibration S P) (cams : List (Json S)) :
    lookupKey "accelerometer" (documentMembers calib cams) = some (accObject calib) ∧
    lookupKey "gyroscope" (documentMembers calib cams) = some (gyroObject calib) ∧
    lookupKey "fisheyeCamera" (documentMembers calib cams) = none ∧
    lookupKey "cameras" (documentMembers calib cams) =
      match cams with
      | [] => none
      | c :: cs => some (Json.arr (c :: cs)) := by
  cases cams <;> simp +decide [documentMembers, lookupKey]

theorem lookup_imuToCamera (models : Option (Json S)) (knots : List (Knot S)) (m : Json S) :
    lookupKey "imuToCamera" (cameraMembers models knots m) = some m := by
  simp [cameraMembers, lookupKey]

theorem lookup_models (models : Option (Json S)) (knots : List (Knot S)) (m : Json S) :
    lookupKey "models" (cameraMembers models knots m) = models := by
  cases models <;> cases knots <;> simp +decide [cameraMembers, lookupKey]

theorem lookup_vignette (models : Option (Json S)) (knots : List (Knot S)) (m : Json S) :
    lookupKey "vignette" (cameraMembers models knots m) =
      match knots with
      | [] => none
      | k :: ks => some (Json.arr ((k :: ks).map fun knot => Json.num knot.first)) := by
  cases models <;> cases knots <;> simp +decide [cameraMembers, lookupKey]

end BlockLemmas

section LoopLemmas
variable {S P : Type} [PoseLib P S]

theorem camerasJson_pushBackAt (cams : List (Json S)) (c : Json S) :
    (camerasJson cams).pushBackAt "cameras" c = Except.ok (camerasJson (cams ++ [c])) := by
  cases cams with
  | nil => rfl
  | cons a as =>
    simp [camerasJson, Json.pushBackAt, Json.member, lookupKey, Json.pushBack, Json.set,
      insertKey, keyLt_irrefl, bind, Except.bind]

/-- The loop variables after the first `n` iterations of the camera loop. -/
theorem cameraLoop_prefix (calib : Calibration S P) (f : Nat → CameraResult S) (n : Nat)
    (h : ∀ i, i < n → cameraBody calib i = Except.ok (f i)) :
    (List.range n).foldlM (cameraIteration calib) ⟨Json.null, false, []⟩ =
      Except.ok ⟨camerasJson ((List.range n).map fun i => (f i).cameraJson),
        (List.range n).any (fun i => (f i).setsFisheye),
        ((List.range n).map fun i => (f i).out).flatten⟩ := by
  induction n with
  | zero => rfl
  | succ n ih =>
    rw [List.range_succ, List.foldlM_append, ih (fun i hi => h i (Nat.lt_succ_of_lt hi))]
    simp [cameraIteration, h n (Nat.lt_succ_self n), camerasJson_pushBackAt, bind, Except.bind,
      pure, Except.pure]

theorem cameraLoop_eq (calib : Calibration S P) (f : Nat → CameraResult S)
    (h : ∀ i, i < calib.T_i_c.length → cameraBody calib i = Except.ok (f i)) :
    cameraLoop calib =
      Except.ok ⟨camerasJson ((List.range calib.T_i_c.length).map fun i => (f i).cameraJson),
        (List.range calib.T_i_c.length).any (fun i => (f i).setsFisheye),
        ((List.range calib.T_i_c.length).map fun i => (f i).out).flatten⟩ :=
  cameraLoop_prefix calib f _ h

/-- The outcome of the converter when every loop body completes. -/
theorem convert_eq (calib : Calibration S P) (f : Nat → CameraResult S)
    (h : ∀ i, i < calib.T_i_c.length → cameraBody calib i = Except.ok (f i)) :
    convert calib = Except.ok
      ⟨Json.obj (documentMembers calib ((List.range calib.T_i_c.length).map fun i => (f i).cameraJson)),
        (List.range calib.T_i_c.length).any (fun i => (f i).setsFisheye),
        ((List.range calib.T_i_c.length).map fun i => (f i).out).flatten ++
          (if (List.range calib.T_i_c.length).any (fun i => (f i).setsFisheye) = true then
            [Out.text "fisheyeCamera true;", Out.endl] else [])⟩ := by
  unfold convert
  rw [cameraLoop_eq calib f h]
  simp only [bind, Except.bind, gyroBlock_eq, accBlock_eq, pure, Except.pure]
  cases (List.range calib.T_i_c.length).map fun i => (f i).cameraJson with
  | nil => simp +decide [camerasJson, Json.set, insertKey, documentMembers]
  | cons c cs => simp +decide [camerasJson, Json.set, insertKey, documentMembers]
end LoopLemmas

section DocumentLemmas
variable {S P : Type} [PoseLib P S]

/-- When every access is in range, the loop body completes for each processed index, with
the camera object described by `cameraMembers`. -/
theorem cameraBody_inRange {calib : Calibration S P} (h : inRange calib = true) {i : Nat}
    (hi : i < calib.T_i_c.length) :
    ∃ intr vig pose d,
      calib.intrinsics[i]? = some intr ∧ calib.vignette[i]? = some vig ∧
      calib.T_i_c[i]? = some pose ∧ modelDispatch i intr = Except.ok d ∧
      d.setsFisheye = decide (intr.getName = "kb4") ∧
      cameraBody calib i = Except.ok
        ⟨Json.obj (cameraMembers (d.cameraJson.get? "models") vig.getKnots
            (rowMajor (PoseLib.matrix (PoseLib.inverse pose)))),
          d.setsFisheye, d.out ++ matrixReport i (PoseLib.matrix (PoseLib.inverse pose))⟩ := by
  obtain ⟨h1, h2, h3⟩ := (inRange_iff calib).1 h
  have e1 : calib.intrinsics[i]? = some (calib.intrinsics[i]) := List.getElem?_eq_getElem _
  have e2 : calib.vignette[i]? = some (calib.vignette[i]) := List.getElem?_eq_getElem _
  have e3 : calib.T_i_c[i]? = some (calib.T_i_c[i]) := List.getElem?_eq_getElem _
  obtain ⟨d, hd, hshape, hf⟩ := modelDispatch_ok i _ (h3 i _ hi e1)
  exact ⟨_, _, _, d, e1, e2, e3, hd, hf, cameraBody_eq e1 e2 e3 hd hshape⟩

theorem cameraBody_bodyOf {calib : Calibration S P} (h : inRange calib = true) {i : Nat}
    (hi : i < calib.T_i_c.length) :
    cameraBody calib i = Except.ok (bodyOf calib i) := by
  obtain ⟨_, _, _, _, _, _, _, _, _, hb⟩ := cameraBody_inRange h hi
  simp [bodyOf, hb]

/-- When every access is in range, the converter completes, with the document described by
`documentMembers` and the camera objects of the loop bodies. -/
theorem convert_inRange {calib : Calibration S P} (h : inRange calib = true) :
    convert calib = Except.ok
      ⟨Json.obj (documentMembers calib
          ((List.range calib.T_i_c.length).map fun i => (bodyOf calib i).cameraJson)),
        (List.range calib.T_i_c.length).any (fun i => (bodyOf calib i).setsFisheye),
        ((List.range calib.T_i_c.length).map fun i => (bodyOf calib i).out).flatten ++
          (if (List.range calib.T_i_c.length).any (fun i => (bodyOf calib i).setsFisheye) = true
            then [Out.text "fisheyeCamera true;", Out.endl] else [])⟩ :=
  convert_eq calib (bodyOf calib) fun _ hi => cameraBody_bodyOf h hi

/-- The camera object at position `i` of the `cameras` array of the document. -/
theorem document_camera {calib : Calibration S P} (h : inRange calib = true) {i : Nat}
    (hi : i < calib.T_i_c.length) :
    ∃ r cams, convert calib = Except.ok r ∧
      r.calibJson.get? "cameras" = some (Json.arr cams) ∧ cams.length = calib.T_i_c.length ∧
      cams[i]? = some (bodyOf calib i).cameraJson := by
  refine ⟨_, (List.range calib.T_i_c.length).map fun i => (bodyOf calib i).cameraJson,
    convert_inRange h, ?_, by simp, by simp [List.getElem?_map, List.getElem?_range hi]⟩
  simp only [Json.get?]
  rw [(lookup_document calib _).2.2.2]
  cases hn : calib.T_i_c.length with
  | zero => omega
  | succ n => simp [List.range_succ_eq_map]
end DocumentLemmas

section FlagLemmas
variable {S P : Type} [PoseLib P S]

theorem bodyOf_setsFisheye {calib : Calibration S P} (h : inRange calib = true) {i : Nat}
    (hi : i < calib.T_i_c.length) {intr : Intrinsics S} (e : calib.intrinsics[i]? = some intr) :
    (bodyOf calib i).setsFisheye = decide (intr.getName = "kb4") := by
  obtain ⟨intr', vig, pose, d, e1, -, -, -, hd, hb⟩ := cameraBody_inRange h hi
  rw [e] at e1
  cases e1
  simp [bodyOf, hb, hd]

theorem any_setsFisheye_iff {calib : Calibration S P} (h : inRange calib = true) :
    (List.range calib.T_i_c.length).any (fun i => (bodyOf calib i).setsFisheye) = true ↔
      ∃ i intr, i < calib.T_i_c.length ∧ calib.intrinsics[i]? = some intr ∧
        intr.getName = "kb4" := by
  simp only [List.any_eq_true, List.mem_range]
  constructor
  · rintro ⟨i, hi, hf⟩
    have hlen : i < calib.intrinsics.length :=
      Nat.lt_of_lt_of_le hi ((inRange_iff calib).1 h).1
    have e : calib.intrinsics[i]? = some calib.intrinsics[i] := List.getElem?_eq_getElem hlen
    rw [bodyOf_setsFisheye h hi e] at hf
    exact ⟨i, _, hi, e, by simpa using hf⟩
  · rintro ⟨i, intr, hi, e, hn⟩
    exact ⟨i, hi, by rw [bodyOf_setsFisheye h hi e]; simp [hn]⟩
end FlagLemmas

/-! ## The claims -/

section Claims

variable {S P : Type} [PoseLib P S]

/-- C1, amended.  When every access of the camera loop is in range the converter completes.
With at least one camera, the `cameras` value of the document is an array with exactly one
object per camera, and the object at position `i` is the one the loop body builds for camera
`i`.  With no camera the document has no `cameras` member. -/
theorem cameras_array_of_inRange (calib : Calibration S P) (h : inRange calib = true) :
    ∃ r, convert calib = Except.ok r ∧
      (calib.T_i_c.length = 0 → r.calibJson.get? "cameras" = none) ∧
      (0 < calib.T_i_c.length →
        ∃ cams, r.calibJson.get? "cameras" = some (Json.arr cams) ∧
          cams.length = calib.T_i_c.length ∧
          ∀ i, i < calib.T_i_c.length →
            ∃ c, cameraBody calib i = Except.ok c ∧ cams[i]? = some c.cameraJson) := by
  refine ⟨_, convert_inRange h, ?_, ?_⟩
  · intro h0
    simp only [Json.get?]
    rw [(lookup_document calib _).2.2.2, h0]
    rfl
  · intro hpos
    obtain ⟨r, cams, hr, hc, hl, -⟩ := document_camera h hpos
    rw [convert_inRange h] at hr
    cases hr
    refine ⟨cams, hc, hl, fun i hi => ⟨bodyOf calib i, cameraBody_bodyOf h hi, ?_⟩⟩
    obtain ⟨r', cams', hr', hc', -, hi'⟩ := document_camera h hi
    rw [convert_inRange h] at hr'
    cases hr'
    rw [hc] at hc'
    cases hc'
    exact hi'

/-- C1, witness: the end-to-end scenario, with two cameras. -/
theorem cameras_array_of_inRange_witness :
    inRange scenario = true ∧
    ∃ r, convert scenario = Except.ok r ∧
      (scenario.T_i_c.length = 0 → r.calibJson.get? "cameras" = none) ∧
      (0 < scenario.T_i_c.length →
        ∃ cams, r.calibJson.get? "cameras" = some (Json.arr cams) ∧
          cams.length = scenario.T_i_c.length ∧
          ∀ i, i < scenario.T_i_c.length →
            ∃ c, cameraBody scenario i = Except.ok c ∧ cams[i]? = some c.cameraJson) :=
  ⟨by decide, cameras_array_of_inRange scenario (by decide)⟩

/-- C1, counterexample: for the record without cameras the converter completes and the
document has no `cameras` member, so its `cameras` value is not an array of zero objects. -/
theorem no_cameras_no_array :
    ∃ r, convert noCameras = Except.ok r ∧
      r.calibJson.get? "cameras" = none ∧
      ¬ ∃ cams, r.calibJson.get? "cameras" = some (Json.arr cams) ∧
          cams.length = noCameras.T_i_c.length := by
  have h : inRange noCameras = true := by decide
  have hc : (Json.obj (documentMembers noCameras
      ((List.range noCameras.T_i_c.length).map fun i =>
        (bodyOf noCameras i).cameraJson))).get? "cameras" = none := by
    simp only [Json.get?]
    rw [(lookup_document noCameras _).2.2.2]
    rfl
  refine ⟨_, convert_inRange h, hc, ?_⟩
  rintro ⟨cams, hcams, -⟩
  rw [hc] at hcams
  cases hcams

/-- C2, amended.  When every access of the camera loop is in range the converter completes,
the document has no `fisheyeCamera` member, and the variable `fisheye`, which is only
reported on the console, is true exactly when a processed camera has the model name `kb4`. -/
theorem fisheye_flag_not_in_document (calib : Calibration S P) (h : inRange calib = true) :
    ∃ r, convert calib = Except.ok r ∧
      r.calibJson.get? "fisheyeCamera" = none ∧
      (r.fisheye = true ↔
        ∃ i intr, i < calib.T_i_c.length ∧ calib.intrinsics[i]? = some intr ∧
          intr.getName = "kb4") := by
  refine ⟨_, convert_inRange h, ?_, ?_⟩
  · simp only [Json.get?]
    exact (lookup_document calib _).2.2.1
  · exact any_setsFisheye_iff h

/-- C2, witness: the record with a single Kannala-Brandt camera. -/
theorem fisheye_flag_not_in_document_witness :
    inRange fisheyeRig = true ∧
    ∃ r, convert fisheyeRig = Except.ok r ∧
      r.calibJson.get? "fisheyeCamera" = none ∧
      (r.fisheye = true ↔
        ∃ i intr, i < fisheyeRig.T_i_c.length ∧ fisheyeRig.intrinsics[i]? = some intr ∧
          intr.getName = "kb4") :=
  ⟨by decide, fisheye_flag_not_in_document fisheyeRig (by decide)⟩

/-- C2, counterexample: the end-to-end scenario has a camera with the model name `kb4`, the
converter completes with `fisheye` set, and the document has no `fisheyeCamera` member. -/
theorem fisheye_member_missing :
    (∃ intr, scenario.intrinsics[1]? = some intr ∧ intr.getName = "kb4") ∧
    ∃ r, convert scenario = Except.ok r ∧ r.fisheye = true ∧
      r.calibJson.get? "fisheyeCamera" = none ∧
      r.calibJson.get? "fisheyeCamera" ≠ some (Json.bool true) := by
  have h : inRange scenario = true := by decide
  have hc : (Json.obj (documentMembers scenario
      ((List.range scenario.T_i_c.length).map fun i =>
        (bodyOf scenario i).cameraJson))).get? "fisheyeCamera" = none := by
    simp only [Json.get?]
    exact (lookup_document scenario _).2.2.1
  refine ⟨⟨_, rfl, rfl⟩, _, convert_inRange h, ?_, hc, ?_⟩
  · exact (any_setsFisheye_iff h).2 ⟨1, _, by decide, rfl, rfl⟩
  · rw [hc]; simp

end Claims

section Claims2

variable {S P : Type} [PoseLib P S]

/-- C3.  For a camera with pose `(R, t)`, `R` orthonormal, the `imuToCamera` member of its
camera object, which is the object at position `i` of the `cameras` array of the document, is
a list of 4 rows of 4 scalars whose entry `(r, c)` is entry `(r, c)` of the inverse transform
matrix; that matrix times the matrix of the stored pose is the identity; and for the identity
rotation with the same translation it is the identity rotation with translation `-t`. -/
theorem imuToCamera_inverse_pose {S : Type} [CommRing S] (calib : Calibration S (SE3 S))
    (i : Nat) (R : Matrix (Fin 3) (Fin 3) S) (t : Fin 3 → S)
    (h : inRange calib = true) (hp : calib.T_i_c[i]? = some ⟨R, t⟩)
    (horth : R.transpose * R = 1) :
    ∃ r cams cam, convert calib = Except.ok r ∧
      r.calibJson.get? "cameras" = some (Json.arr cams) ∧ cams[i]? = some cam ∧
      cam.get? "imuToCamera" = some (Json.arr ((List.finRange 4).map fun r =>
        Json.arr ((List.finRange 4).map fun c =>
          Json.num (inverseTransformMatrix R t r c)))) ∧
      inverseTransformMatrix R t * SE3.matrix ⟨R, t⟩ = 1 ∧
      inverseTransformMatrix 1 t =
        !![1, 0, 0, -t 0; 0, 1, 0, -t 1; 0, 0, 1, -t 2; 0, 0, 0, 1] := by
  have hi : i < calib.T_i_c.length := by
    by_contra hn
    rw [List.getElem?_eq_none (Nat.le_of_not_lt hn)] at hp
    cases hp
  obtain ⟨r, cams, hr, hc, -, hcam⟩ := document_camera h hi
  obtain ⟨intr, vig, pose, d, -, -, e3, -, -, hb⟩ := cameraBody_inRange h hi
  rw [hp] at e3
  cases e3
  refine ⟨r, cams, _, hr, hc, hcam, ?_, inverse_mul_pose R t horth, ?_⟩
  · simp only [bodyOf, hb, Json.get?, lookup_imuToCamera, rowMajor]
    show some (Json.arr ((List.finRange 4).map fun r => Json.arr ((List.finRange 4).map fun c =>
      Json.num (SE3.matrix (SE3.inverse ⟨R, t⟩) r c)))) = _
    rw [inverse_matrix_eq]
  · exact inverse_of_identity t

/-- C3, witness: a camera turned by a quarter turn and translated by `(1, 2, 3)`. -/
theorem imuToCamera_inverse_pose_witness :
    inRange turnedRig = true ∧
    turnedRig.T_i_c[0]? = some ⟨!![0, -1, 0; 1, 0, 0; 0, 0, 1], ![1, 2, 3]⟩ ∧
    (!![0, -1, 0; 1, 0, 0; 0, 0, 1] : Matrix (Fin 3) (Fin 3) ℤ).transpose *
      !![0, -1, 0; 1, 0, 0; 0, 0, 1] = 1 ∧
    ∃ r cams cam, convert turnedRig = Except.ok r ∧
      r.calibJson.get? "cameras" = some (Json.arr cams) ∧ cams[0]? = some cam ∧
      cam.get? "imuToCamera" = some (Json.arr ((List.finRange 4).map fun r =>
        Json.arr ((List.finRange 4).map fun c => Json.num
          (inverseTransformMatrix !![0, -1, 0; 1, 0, 0; 0, 0, 1] ![1, 2, 3] r c)))) ∧
      inverseTransformMatrix !![0, -1, 0; 1, 0, 0; 0, 0, 1] ![1, 2, 3] *
        SE3.matrix ⟨!![0, -1, 0; 1, 0, 0; 0, 0, 1], ![1, 2, 3]⟩ = 1 ∧
      inverseTransformMatrix 1 ![1, 2, 3] =
        !![1, 0, 0, -(![1, 2, 3] : Fin 3 → ℤ) 0; 0, 1, 0, -(![1, 2, 3] : Fin 3 → ℤ) 1;
           0, 0, 1, -(![1, 2, 3] : Fin 3 → ℤ) 2; 0, 0, 0, 1] :=
  ⟨by decide, rfl, by decide,
    imuToCamera_inverse_pose turnedRig 0 _ _ (by decide) rfl (by decide)⟩

/-- C4, amended.  For a camera of the record whose model name is `ds`, with parameter vector
`p`, the `models` member of its camera object is a list with the single model object whose
members are `name` and exactly 6 scalar fields, `focalLengthX`, `focalLengthY`,
`principalPointX`, `principalPointY`, `xi`, `alpha`, with values `p[0]`, ..., `p[5]`; in the
document they stand in the order of their keys, `alpha` first. -/
theorem ds_model_object (calib : Calibration S P) (i : Nat) (intr : Intrinsics S)
    (h : inRange calib = true) (hi : i < calib.T_i_c.length)
    (e : calib.intrinsics[i]? = some intr) (hn : intr.getName = "ds")
    (hl : 6 ≤ intr.getParam.length) :
    ∃ r cams cam m, convert calib = Except.ok r ∧
      r.calibJson.get? "cameras" = some (Json.arr cams) ∧ cams[i]? = some cam ∧
      cam.get? "models" = some (Json.arr [m]) ∧
      m = Json.obj [("alpha", Json.num intr.getParam[5]),
        ("focalLengthX", Json.num intr.getParam[0]),
        ("focalLengthY", Json.num intr.getParam[1]),
        ("name", Json.str "doublesphere"),
        ("principalPointX", Json.num intr.getParam[2]),
        ("principalPointY", Json.num intr.getParam[3]),
        ("xi", Json.num intr.getParam[4])] ∧
      scalarFields m = [("alpha", intr.getParam[5]), ("focalLengthX", intr.getParam[0]),
        ("focalLengthY", intr.getParam[1]), ("principalPointX", intr.getParam[2]),
        ("principalPointY", intr.getParam[3]), ("xi", intr.getParam[4])] := by
  obtain ⟨r, cams, hr, hc, -, hcam⟩ := document_camera h hi
  obtain ⟨intr', vig, pose, d, e1, -, -, hd, -, hb⟩ := cameraBody_inRange h hi
  rw [e] at e1
  cases e1
  obtain ⟨name, params⟩ := intr
  simp only at hn hl
  subst hn
  obtain ⟨p0, p1, p2, p3, p4, p5, rest, rfl⟩ := exists_six hl
  rw [modelDispatch_ds] at hd
  cases hd
  refine ⟨r, cams, _, _, hr, hc, hcam, ?_, rfl, ?_⟩
  · simp only [bodyOf, hb, Json.get?, lookup_models]
    rfl
  · simp [scalarFields]

/-- C4, witness: the double-sphere camera of the end-to-end scenario. -/
theorem ds_model_object_witness :
    inRange scenario = true ∧ 0 < scenario.T_i_c.length ∧
    scenario.intrinsics[0]? = some ⟨"ds", [500, 500, 320, 240, -(2/10), 6/10]⟩ ∧
    ∃ r cams cam, ∃ m : Json ℚ, convert scenario = Except.ok r ∧
      r.calibJson.get? "cameras" = some (Json.arr cams) ∧ cams[0]? = some cam ∧
      cam.get? "models" = some (Json.arr [m]) ∧
      m = Json.obj [("alpha", Json.num (6/10)), ("focalLengthX", Json.num 500),
        ("focalLengthY", Json.num 500), ("name", Json.str "doublesphere"),
        ("principalPointX", Json.num 320), ("principalPointY", Json.num 240),
        ("xi", Json.num (-(2/10)))] ∧
      scalarFields m = [("alpha", 6/10), ("focalLengthX", 500), ("focalLengthY", 500),
        ("principalPointX", 320), ("principalPointY", 240), ("xi", -(2/10))] :=
  ⟨by decide, by decide, rfl,
    ds_model_object scenario 0 ⟨"ds", [500, 500, 320, 240, -(2/10), 6/10]⟩ (by decide)
      (by decide) rfl rfl (by decide)⟩

/-- C4, counterexample: for a double-sphere camera with parameters `500, 501, 320, 240, 5, 6`
the scalar fields of the emitted model object stand in the order `alpha`, `focalLengthX`,
`focalLengthY`, `principalPointX`, `principalPointY`, `xi`, which is not the order
`focalLengthX`, `focalLengthY`, `principalPointX`, `principalPointY`, `xi`, `alpha`. -/
theorem ds_fields_sorted_by_key :
    ∃ d m, modelDispatch 0 (⟨"ds", [500, 501, 320, 240, 5, 6]⟩ : Intrinsics ℤ) = Except.ok d ∧
      d.cameraJson.get? "models" = some (Json.arr [m]) ∧
      scalarFields m = [("alpha", 6), ("focalLengthX", 500), ("focalLengthY", 501),
        ("principalPointX", 320), ("principalPointY", 240), ("xi", 5)] ∧
      scalarFields m ≠ [("focalLengthX", 500), ("focalLengthY", 501),
        ("principalPointX", 320), ("principalPointY", 240), ("xi", 5), ("alpha", 6)] := by
  refine ⟨_, _, modelDispatch_ds 0 500 501 320 240 5 6 [], rfl, ?_, ?_⟩
  · simp [scalarFields, dsObject]
  · simp [scalarFields, dsObject]

end Claims2

section Claims3

variable {S P : Type} [PoseLib P S]

/-- C5.  For a camera of the record whose model name is `kb4`, with parameter vector `p`, the
`models` member of its camera object is a list with the single model object, in which
`focalLengthX`, `focalLengthY`, `principalPointX`, `principalPointY` are `p[0]`, `p[1]`,
`p[2]`, `p[3]` and `distortionCoefficient` is the list of exactly the 4 entries `p[4]`,
`p[5]`, `p[6]`, `p[7]`, in that order. -/
theorem kb4_model_object (calib : Calibration S P) (i : Nat) (intr : Intrinsics S)
    (h : inRange calib = true) (hi : i < calib.T_i_c.length)
    (e : calib.intrinsics[i]? = some intr) (hn : intr.getName = "kb4")
    (hl : 8 ≤ intr.getParam.length) :
    ∃ r cams cam m, convert calib = Except.ok r ∧
      r.calibJson.get? "cameras" = some (Json.arr cams) ∧ cams[i]? = some cam ∧
      cam.get? "models" = some (Json.arr [m]) ∧
      m.get? "focalLengthX" = some (Json.num intr.getParam[0]) ∧
      m.get? "focalLengthY" = some (Json.num intr.getParam[1]) ∧
      m.get? "principalPointX" = some (Json.num intr.getParam[2]) ∧
      m.get? "principalPointY" = some (Json.num intr.getParam[3]) ∧
      m.get? "distortionCoefficient" = some (Json.arr [Json.num intr.getParam[4],
        Json.num intr.getParam[5], Json.num intr.getParam[6], Json.num intr.getParam[7]]) := by
  obtain ⟨r, cams, hr, hc, -, hcam⟩ := document_camera h hi
  obtain ⟨intr', vig, pose, d, e1, -, -, hd, -, hb⟩ := cameraBody_inRange h hi
  rw [e] at e1
  cases e1
  obtain ⟨name, params⟩ := intr
  simp only at hn hl
  subst hn
  obtain ⟨p0, p1, p2, p3, p4, p5, p6, p7, rest, rfl⟩ := exists_eight hl
  rw [modelDispatch_kb4] at hd
  cases hd
  refine ⟨r, cams, _, kb4Object p0 p1 p2 p3 p4 p5 p6 p7, hr, hc, hcam, ?_, ?_⟩
  · simp only [bodyOf, hb, Json.get?, lookup_models]
    rfl
  · simp +decide [kb4Object, Json.get?, lookupKey]

/-- C5, witness: the Kannala-Brandt camera of the end-to-end scenario. -/
theorem kb4_model_object_witness :
    inRange scenario = true ∧ 1 < scenario.T_i_c.length ∧
    scenario.intrinsics[1]? =
      some ⟨"kb4", [300, 300, 160, 120, 1/10, 1/100, 1/1000, 1/10000]⟩ ∧
    ∃ r cams cam, ∃ m : Json ℚ, convert scenario = Except.ok r ∧
      r.calibJson.get? "cameras" = some (Json.arr cams) ∧ cams[1]? = some cam ∧
      cam.get? "models" = some (Json.arr [m]) ∧
      m.get? "focalLengthX" = some (Json.num 300) ∧
      m.get? "focalLengthY" = some (Json.num 300) ∧
      m.get? "principalPointX" = some (Json.num 160) ∧
      m.get? "principalPointY" = some (Json.num 120) ∧
      m.get? "distortionCoefficient" = some (Json.arr [Json.num (1/10),
        Json.num (1/100), Json.num (1/1000), Json.num (1/10000)]) :=
  ⟨by decide, by decide, rfl,
    kb4_model_object scenario 1 ⟨"kb4", [300, 300, 160, 120, 1/10, 1/100, 1/1000, 1/10000]⟩
      (by decide) (by decide) rfl rfl (by decide)⟩

/-- C6.  For every camera of the record with a supported model name, the `models` member of
the object at its position in the `cameras` array is a list with exactly one entry, whose
`name` is `doublesphere` for the model name `ds` and `kannala-brandt4` for `kb4`. -/
theorem models_single_entry_name (calib : Calibration S P) (i : Nat) (intr : Intrinsics S)
    (h : inRange calib = true) (hi : i < calib.T_i_c.length)
    (e : calib.intrinsics[i]? = some intr)
    (hn : intr.getName = "ds" ∨ intr.getName = "kb4") :
    ∃ r cams cam m, convert calib = Except.ok r ∧
      r.calibJson.get? "cameras" = some (Json.arr cams) ∧ cams[i]? = some cam ∧
      cam.get? "models" = some (Json.arr [m]) ∧
      (intr.getName = "ds" → m.get? "name" = some (Json.str "doublesphere")) ∧
      (intr.getName = "kb4" → m.get? "name" = some (Json.str "kannala-brandt4")) := by
  obtain ⟨r, cams, hr, hc, -, hcam⟩ := document_camera h hi
  obtain ⟨intr', vig, pose, d, e1, -, -, hd, -, hb⟩ := cameraBody_inRange h hi
  rw [e] at e1
  cases e1
  have hp := ((inRange_iff calib).1 h).2.2 i _ hi e
  obtain ⟨name, params⟩ := intr
  simp only at hn
  rcases hn with hn | hn
  · subst hn
    simp [paramsInRange] at hp
    obtain ⟨p0, p1, p2, p3, p4, p5, rest, rfl⟩ := exists_six hp
    rw [modelDispatch_ds] at hd
    cases hd
    refine ⟨r, cams, _, dsObject p0 p1 p2 p3 p4 p5, hr, hc, hcam, ?_, ?_⟩
    · simp only [bodyOf, hb, Json.get?, lookup_models]
      rfl
    · simp +decide [dsObject, Json.get?, lookupKey]
  · subst hn
    simp [paramsInRange] at hp
    obtain ⟨p0, p1, p2, p3, p4, p5, p6, p7, rest, rfl⟩ := exists_eight hp
    rw [modelDispatch_kb4] at hd
    cases hd
    refine ⟨r, cams, _, kb4Object p0 p1 p2 p3 p4 p5 p6 p7, hr, hc, hcam, ?_, ?_⟩
    · simp only [bodyOf, hb, Json.get?, lookup_models]
      rfl
    · simp +decide [kb4Object, Json.get?, lookupKey]

/-- C6, witness: in the end-to-end scenario `cameras[0].models[0].name` is `doublesphere`
and `cameras[1].models[0].name` is `kannala-brandt4`. -/
theorem models_single_entry_name_witness :
    inRange scenario = true ∧
    (∃ r cams cam, ∃ m : Json ℚ, convert scenario = Except.ok r ∧
      r.calibJson.get? "cameras" = some (Json.arr cams) ∧ cams[0]? = some cam ∧
      cam.get? "models" = some (Json.arr [m]) ∧
      m.get? "name" = some (Json.str "doublesphere")) ∧
    (∃ r cams cam, ∃ m : Json ℚ, convert scenario = Except.ok r ∧
      r.calibJson.get? "cameras" = some (Json.arr cams) ∧ cams[1]? = some cam ∧
      cam.get? "models" = some (Json.arr [m]) ∧
      m.get? "name" = some (Json.str "kannala-brandt4")) := by
  refine ⟨by decide, ?_, ?_⟩
  · obtain ⟨r, cams, cam, m, h1, h2, h3, h4, h5, -⟩ :=
      models_single_entry_name scenario 0 ⟨"ds", [500, 500, 320, 240, -(2/10), 6/10]⟩
        (by decide) (by decide) rfl (Or.inl rfl)
    exact ⟨r, cams, cam, m, h1, h2, h3, h4, h5 rfl⟩
  · obtain ⟨r, cams, cam, m, h1, h2, h3, h4, -, h6⟩ :=
      models_single_entry_name scenario 1
        ⟨"kb4", [300, 300, 160, 120, 1/10, 1/100, 1/1000, 1/10000]⟩
        (by decide) (by decide) rfl (Or.inr rfl)
    exact ⟨r, cams, cam, m, h1, h2, h3, h4, h6 rfl⟩

end Claims3

section Claims4

variable {S P : Type} [PoseLib P S]

/-- C7, amended.  For a camera of the record whose vignette curve has at least one knot, the
`vignette` member of its camera object is a list with one value per knot, the `k`-th value
being the first coordinate of the `k`-th knot; for a curve without knots the camera object
has no `vignette` member. -/
theorem vignette_member (calib : Calibration S P) (i : Nat) (vig : Vignette S)
    (h : inRange calib = true) (hi : i < calib.T_i_c.length)
    (e : calib.vignette[i]? = some vig) :
    ∃ r cams cam, convert calib = Except.ok r ∧
      r.calibJson.get? "cameras" = some (Json.arr cams) ∧ cams[i]? = some cam ∧
      (vig.getKnots = [] → cam.get? "vignette" = none) ∧
      (vig.getKnots ≠ [] →
        ∃ vals, cam.get? "vignette" = some (Json.arr vals) ∧
          vals.length = vig.getKnots.length ∧
          ∀ (k : Nat) (knot : Knot S), vig.getKnots[k]? = some knot →
            vals[k]? = some (Json.num knot.first)) := by
  obtain ⟨r, cams, hr, hc, -, hcam⟩ := document_camera h hi
  obtain ⟨intr, vig', pose, d, -, e2, -, -, -, hb⟩ := cameraBody_inRange h hi
  rw [e] at e2
  cases e2
  refine ⟨r, cams, _, hr, hc, hcam, ?_, ?_⟩
  · intro h0
    simp only [bodyOf, hb, Json.get?, lookup_vignette, h0]
  · intro hne
    cases hk : vig.getKnots with
    | nil => exact absurd hk hne
    | cons k ks =>
      refine ⟨(k :: ks).map fun knot => Json.num knot.first, ?_, by simp, ?_⟩
      · simp only [bodyOf, hb, Json.get?, lookup_vignette, hk]
      · intro j knot hj
        rw [List.getElem?_map, hj]
        rfl

/-- C7, witness: the first camera of the end-to-end scenario, with two knots. -/
theorem vignette_member_witness :
    inRange scenario = true ∧ 0 < scenario.T_i_c.length ∧
    scenario.vignette[0]? = some ⟨[⟨1, []⟩, ⟨9/10, []⟩]⟩ ∧
    ∃ r cams cam, convert scenario = Except.ok r ∧
      r.calibJson.get? "cameras" = some (Json.arr cams) ∧ cams[0]? = some cam ∧
      cam.get? "vignette" = some (Json.arr [Json.num 1, Json.num (9/10)]) := by
  refine ⟨by decide, by decide, rfl, ?_⟩
  obtain ⟨r, cams, cam, h1, h2, h3, -, h5⟩ :=
    vignette_member scenario 0 ⟨[⟨1, []⟩, ⟨9/10, []⟩]⟩ (by decide) (by decide) rfl
  obtain ⟨vals, hv, hl, hk⟩ := h5 (by simp)
  refine ⟨r, cams, cam, h1, h2, h3, ?_⟩
  have h0 := hk 0 _ rfl
  have h1' := hk 1 _ rfl
  match vals, hl, h0, h1' with
  | [a, b], _, h0, h1' =>
    simp only [List.getElem?_cons_zero, List.getElem?_cons_succ, Option.some.injEq] at h0 h1'
    rw [hv, h0, h1']
    rfl

/-- C7, counterexample: the camera of the record whose vignette curve has no knot gets a
camera object without a `vignette` member, so there is no `vignette` list of length zero. -/
theorem no_knots_no_vignette :
    bareRig.vignette[0]? = some ⟨[]⟩ ∧
    ∃ r cams cam, convert bareRig = Except.ok r ∧
      r.calibJson.get? "cameras" = some (Json.arr cams) ∧ cams[0]? = some cam ∧
      cam.get? "vignette" = none ∧
      ¬ ∃ vals, cam.get? "vignette" = some (Json.arr vals) ∧ vals.length = 0 := by
  have h : inRange bareRig = true := by decide
  have hi : 0 < bareRig.T_i_c.length := by decide
  obtain ⟨r, cams, hr, hc, -, hcam⟩ := document_camera h hi
  obtain ⟨intr, vig, pose, d, -, e2, -, -, -, hb⟩ := cameraBody_inRange h hi
  have e : bareRig.vignette[0]? = some ⟨[]⟩ := rfl
  rw [e] at e2
  cases e2
  have hv : (bodyOf bareRig 0).cameraJson.get? "vignette" = none := by
    simp only [bodyOf, hb, Json.get?, lookup_vignette]
  refine ⟨rfl, r, cams, _, hr, hc, hcam, hv, ?_⟩
  rintro ⟨vals, hvals, -⟩
  rw [hv] at hvals
  cases hvals

end Claims4

section Claims5

variable {S P : Type} [PoseLib P S]

/-- C8.  For a camera of the record whose model name is neither `kb4` nor `ds` the converter
does not fail: the camera object stands at the camera's position in the `cameras` array,
which has one entry per camera; it has no `models` member, hence no model entry; it has an
`imuToCamera` member; and its `vignette` and `imuToCamera` members are the same as those of
the camera object built when the intrinsics of that camera are replaced by any supported
intrinsics. -/
theorem unsupported_model_omitted (calib : Calibration S P) (i : Nat) (intr : Intrinsics S)
    (h : inRange calib = true) (hi : i < calib.T_i_c.length)
    (e : calib.intrinsics[i]? = some intr)
    (h1 : intr.getName ≠ "kb4") (h2 : intr.getName ≠ "ds") :
    ∃ r cams cam, convert calib = Except.ok r ∧
      r.calibJson.get? "cameras" = some (Json.arr cams) ∧
      cams.length = calib.T_i_c.length ∧ cams[i]? = some cam ∧
      cam.get? "models" = none ∧
      (∃ m, cam.get? "imuToCamera" = some m) ∧
      ∀ intr' : Intrinsics S,
        (intr'.getName = "kb4" ∨ intr'.getName = "ds") → paramsInRange intr' = true →
        ∃ c, cameraBody { calib with intrinsics := calib.intrinsics.set i intr' } i =
            Except.ok c ∧
          (∃ m, c.cameraJson.get? "models" = some (Json.arr [m])) ∧
          c.cameraJson.get? "vignette" = cam.get? "vignette" ∧
          c.cameraJson.get? "imuToCamera" = cam.get? "imuToCamera" := by
  obtain ⟨r, cams, hr, hc, hl, hcam⟩ := document_camera h hi
  obtain ⟨intr0, vig, pose, d, e1, e2, e3, hd, -, hb⟩ := cameraBody_inRange h hi
  rw [e] at e1
  cases e1
  rw [modelDispatch_other i intr h1 h2] at hd
  cases hd
  have hbody : (bodyOf calib i).cameraJson = Json.obj (cameraMembers none vig.getKnots
      (rowMajor (PoseLib.matrix (PoseLib.inverse pose)))) := by
    simp only [bodyOf, hb]
    rfl
  refine ⟨r, cams, _, hr, hc, hl, hcam, ?_,
    ⟨rowMajor (PoseLib.matrix (PoseLib.inverse pose)), ?_⟩, ?_⟩
  · rw [hbody]
    simp only [Json.get?, lookup_models]
  · rw [hbody]
    simp only [Json.get?, lookup_imuToCamera]
  · intro intr' hs hp
    have hlen : i < calib.intrinsics.length :=
      Nat.lt_of_lt_of_le hi ((inRange_iff calib).1 h).1
    obtain ⟨d', hd', hshape, -⟩ := modelDispatch_ok i intr' hp
    have e1' : ({ calib with intrinsics := calib.intrinsics.set i intr' } :
        Calibration S P).intrinsics[i]? = some intr' := by
      simp [List.getElem?_set_self hlen]
    have hb' := @cameraBody_eq S P _ { calib with intrinsics := calib.intrinsics.set i intr' }
      i intr' vig pose d' e1' e2 e3 hd' hshape
    refine ⟨_, hb', ?_, ?_, ?_⟩
    · simp only [Json.get?, lookup_models]
      obtain ⟨name, params⟩ := intr'
      simp only at hs
      rcases hs with hs | hs
      · subst hs
        simp [paramsInRange] at hp
        obtain ⟨p0, p1, p2, p3, p4, p5, p6, p7, rest, rfl⟩ := exists_eight hp
        rw [modelDispatch_kb4] at hd'
        cases hd'
        exact ⟨_, rfl⟩
      · subst hs
        simp [paramsInRange] at hp
        obtain ⟨p0, p1, p2, p3, p4, p5, rest, rfl⟩ := exists_six hp
        rw [modelDispatch_ds] at hd'
        cases hd'
        exact ⟨_, rfl⟩
    · rw [hbody]
      simp only [Json.get?, lookup_vignette]
    · rw [hbody]
      simp only [Json.get?, lookup_imuToCamera]

/-- C8, witness: the second camera of the record with a camera named `pinhole`. -/
theorem unsupported_model_omitted_witness :
    inRange mixedRig = true ∧ 1 < mixedRig.T_i_c.length ∧
    mixedRig.intrinsics[1]? = some ⟨"pinhole", [400, 401, 300, 200]⟩ ∧
    ∃ r cams cam, convert mixedRig = Except.ok r ∧
      r.calibJson.get? "cameras" = some (Json.arr cams) ∧
      cams.length = mixedRig.T_i_c.length ∧ cams[1]? = some cam ∧
      cam.get? "models" = none ∧
      (∃ m, cam.get? "imuToCamera" = some m) ∧
      ∀ intr' : Intrinsics ℤ,
        (intr'.getName = "kb4" ∨ intr'.getName = "ds") → paramsInRange intr' = true →
        ∃ c, cameraBody { mixedRig with intrinsics := mixedRig.intrinsics.set 1 intr' } 1 =
            Except.ok c ∧
          (∃ m, c.cameraJson.get? "models" = some (Json.arr [m])) ∧
          c.cameraJson.get? "vignette" = cam.get? "vignette" ∧
          c.cameraJson.get? "imuToCamera" = cam.get? "imuToCamera" :=
  ⟨by decide, by decide, rfl,
    unsupported_model_omitted mixedRig 1 ⟨"pinhole", [400, 401, 300, 200]⟩ (by decide)
      (by decide) rfl (by decide) (by decide)⟩

/-- C9, amended.  For a record with an empty camera list the converter completes, and the
document has neither a `cameras` member nor a `fisheyeCamera` member: its members are
`accelerometer` and `gyroscope`. -/
theorem empty_record_document (calib : Calibration S P) (h : calib.T_i_c = []) :
    ∃ r, convert calib = Except.ok r ∧
      r.calibJson.get? "cameras" = none ∧
      r.calibJson.get? "fisheyeCamera" = none ∧
      r.calibJson.keys = ["accelerometer", "gyroscope"] := by
  have hc := convert_eq calib (fun _ => default) (fun i hi => by simp [h] at hi)
  simp only [h, List.length_nil, List.range_zero, List.map_nil] at hc
  refine ⟨_, hc, ?_, ?_, ?_⟩
  · simp only [Json.get?]
    rw [(lookup_document calib _).2.2.2]
  · simp only [Json.get?]
    exact (lookup_document calib _).2.2.1
  · simp [Json.keys, documentMembers]

/-- C9, witness: the record without cameras. -/
theorem empty_record_document_witness :
    noCameras.T_i_c = [] ∧
    ∃ r, convert noCameras = Except.ok r ∧
      r.calibJson.get? "cameras" = none ∧
      r.calibJson.get? "fisheyeCamera" = none ∧
      r.calibJson.keys = ["accelerometer", "gyroscope"] :=
  ⟨rfl, empty_record_document noCameras rfl⟩

/-- C9, counterexample: for a record with an empty camera list the converter completes with
a document whose members are `accelerometer` and `gyroscope` only, so the document does not
contain `cameras` as an empty array. -/
theorem empty_record_no_cameras_member :
    idleRig.T_i_c = [] ∧
    ∃ r, convert idleRig = Except.ok r ∧
      r.calibJson.keys = ["accelerometer", "gyroscope"] ∧
      r.calibJson.get? "cameras" ≠ some (Json.arr []) := by
  have hc := convert_eq idleRig (fun _ => default) (fun i hi => by simp [idleRig, rig] at hi)
  have hn : idleRig.T_i_c = [] := rfl
  simp only [hn, List.length_nil, List.range_zero, List.map_nil] at hc
  refine ⟨rfl, _, hc, ?_, ?_⟩
  · simp [Json.keys, documentMembers]
  · simp only [Json.get?]
    rw [(lookup_document idleRig _).2.2.2]
    simp

/-- C10.  When every access of the camera loop is in range the converter completes, the
`accelerometer` block of the document has no `updateRate` member, and the `gyroscope` block
has an `updateRate` member whose value is the update rate of the record. -/
theorem updateRate_only_in_gyroscope (calib : Calibration S P) (h : inRange calib = true) :
    ∃ r gyro acc, convert calib = Except.ok r ∧
      r.calibJson.get? "gyroscope" = some gyro ∧
      gyro.get? "updateRate" = some (Json.int calib.imu_update_rate) ∧
      r.calibJson.get? "accelerometer" = some acc ∧
      acc.get? "updateRate" = none := by
  refine ⟨_, gyroObject calib, accObject calib, convert_inRange h, ?_, ?_, ?_, ?_⟩
  · simp only [Json.get?]
    exact (lookup_document calib _).2.1
  · simp +decide [gyroObject, Json.get?, lookupKey]
  · simp only [Json.get?]
    exact (lookup_document calib _).1
  · simp +decide [accObject, Json.get?, lookupKey]

/-- C10, witness: the record with two cameras and update rate 100. -/
theorem updateRate_only_in_gyroscope_witness :
    inRange mixedRig = true ∧
    ∃ r gyro acc, convert mixedRig = Except.ok r ∧
      r.calibJson.get? "gyroscope" = some gyro ∧
      gyro.get? "updateRate" = some (Json.int 100) ∧
      r.calibJson.get? "accelerometer" = some acc ∧
      acc.get? "updateRate" = none :=
  ⟨by decide, updateRate_only_in_gyroscope mixedRig (by decide)⟩

end Claims5

/-! ## Auxiliary lemmas on the report, on faults and on exchanges -/

section ReportLemmas
variable {S : Type}

theorem finRange_sixteen :
    List.finRange 16 = [0, 1, 2, 3, 4, 5, 6, 7, 8, 9, 10, 11, 12, 13, 14, 15] := by decide

/-- The report loop prints the extrinsic-matrix line of the specification. -/
theorem matrixReport_eq_matrixLine (i : Nat) (m : Matrix (Fin 4) (Fin 4) S) :
    matrixReport i m =
      matrixLine (if i = 0 then "imuToCameraMatrix " else "secondImuToCameraMatrix ") m := by
  simp [matrixReport, matrixLine, finRange_four, finRange_sixteen, Fin.coe_ofNat_eq_mod]

theorem outValues_matrixReport (i : Nat) (m : Matrix (Fin 4) (Fin 4) S) :
    outValues (matrixReport i m) = rowMajorValues m.transpose := by
  simp [matrixReport, outValues, rowMajorValues, finRange_four, Matrix.transpose_apply]

theorem outValues_matrixLine (key : String) (m : Matrix (Fin 4) (Fin 4) S) :
    outValues (matrixLine key m) = (List.finRange 16).map fun k =>
      m ⟨k.val % 4, Nat.mod_lt _ (by decide)⟩ ⟨k.val / 4, by omega⟩ := by
  simp [matrixLine, outValues, finRange_sixteen, Fin.coe_ofNat_eq_mod]

theorem outKeys_matrixReport (i : Nat) (m : Matrix (Fin 4) (Fin 4) S) :
    outKeys (matrixReport i m) =
      [if i = 0 then "imuToCameraMatrix " else "secondImuToCameraMatrix "] := by
  by_cases h : i = 0 <;> simp +decide [matrixReport, outKeys, finRange_four, h]

theorem matrixValues_rowMajor (m : Matrix (Fin 4) (Fin 4) S) :
    (rowMajor m).matrixValues = rowMajorValues m := by
  simp [rowMajor, Json.matrixValues, rowMajorValues, finRange_four]

theorem rowMajorValues_injective {a b : Matrix (Fin 4) (Fin 4) S}
    (h : rowMajorValues a = rowMajorValues b) : a = b := by
  simp [rowMajorValues, finRange_four] at h
  ext r c
  fin_cases r <;> fin_cases c <;> simp [h]

end ReportLemmas

section RunLemmas
variable {S P : Type} [PoseLib P S]

/-- The loop body under the in-range hypothesis, from the data of the camera. -/
theorem bodyOf_eq {calib : Calibration S P} (h : inRange calib = true) {i : Nat}
    (hi : i < calib.T_i_c.length) {intr : Intrinsics S} {vig : Vignette S} {pose : P}
    (e1 : calib.intrinsics[i]? = some intr) (e2 : calib.vignette[i]? = some vig)
    (e3 : calib.T_i_c[i]? = some pose) :
    ∃ d, modelDispatch i intr = Except.ok d ∧
      bodyOf calib i =
        ⟨Json.obj (cameraMembers (d.cameraJson.get? "models") vig.getKnots
            (rowMajor (PoseLib.matrix (PoseLib.inverse pose)))),
          d.setsFisheye, d.out ++ matrixReport i (PoseLib.matrix (PoseLib.inverse pose))⟩ := by
  obtain ⟨intr', vig', pose', d, e1', e2', e3', hd, -, hb⟩ := cameraBody_inRange h hi
  rw [e1] at e1'
  rw [e2] at e2'
  rw [e3] at e3'
  cases e1'
  cases e2'
  cases e3'
  exact ⟨d, hd, by simp [bodyOf, hb]⟩

theorem main_of_convert_ok {calib : Calibration S P} {r : Converted S}
    (h : convert calib = Except.ok r) (calib_path : String) (pathExists : Bool) :
    main calib_path pathExists (Input.loaded calib) =
      ⟨loadReport calib ++ r.out,
        if pathExists then [] else [Out.text "No file found ", Out.text calib_path, Out.endl],
        some r.calibJson, Exit.returned 0⟩ := by
  simp [main, h]

theorem cameraLoop_step_error (calib : Calibration S P) (n : Nat) {f : Fault}
    (h : (List.range n).foldlM (cameraIteration calib) ⟨Json.null, false, []⟩ =
      Except.error f) :
    (List.range (n + 1)).foldlM (cameraIteration calib) ⟨Json.null, false, []⟩ =
      Except.error f := by
  rw [List.range_succ, List.foldlM_append, h]
  rfl

/-- The run stops with the fault of the first loop body that fails. -/
theorem cameraLoop_first_error (calib : Calibration S P) {i : Nat} {f : Fault}
    (hi : i < calib.T_i_c.length) (hf : cameraBody calib i = Except.error f)
    (hok : ∀ k, k < i → ∃ c, cameraBody calib k = Except.ok c) :
    cameraLoop calib = Except.error f := by
  have hpre : (List.range (i + 1)).foldlM (cameraIteration calib) ⟨Json.null, false, []⟩ =
      Except.error f := by
    have hb : ∀ k, k < i → cameraBody calib k = Except.ok (bodyOf calib k) := by
      intro k hk
      obtain ⟨c, hc⟩ := hok k hk
      simp [bodyOf, hc]
    rw [List.range_succ, List.foldlM_append, cameraLoop_prefix calib (bodyOf calib) i hb]
    simp [cameraIteration, hf, bind, Except.bind]
  have hall : ∀ m, (List.range (i + 1 + m)).foldlM (cameraIteration calib)
      ⟨Json.null, false, []⟩ = Except.error f := by
    intro m
    induction m with
    | zero => exact hpre
    | succ m ih => exact cameraLoop_step_error calib _ ih
  have := hall (calib.T_i_c.length - (i + 1))
  unfold cameraLoop
  rwa [show i + 1 + (calib.T_i_c.length - (i + 1)) = calib.T_i_c.length by omega] at this

theorem convert_first_error (calib : Calibration S P) {i : Nat} {f : Fault}
    (hi : i < calib.T_i_c.length) (hf : cameraBody calib i = Except.error f)
    (hok : ∀ k, k < i → ∃ c, cameraBody calib k = Except.ok c) :
    convert calib = Except.error f := by
  simp [convert, cameraLoop_first_error calib hi hf hok, bind, Except.bind]

/-- When some loop body fails, the converter stops with the fault of a loop body. -/
theorem convert_error_of_body (calib : Calibration S P) {i : Nat} {f : Fault}
    (hi : i < calib.T_i_c.length) (hf : cameraBody calib i = Except.error f) :
    ∃ k g, k ≤ i ∧ cameraBody calib k = Except.error g ∧ convert calib = Except.error g := by
  classical
  have hex : ∃ k, ∃ g, cameraBody calib k = Except.error g := ⟨i, f, hf⟩
  obtain ⟨g, hg⟩ := Nat.find_spec hex
  have hle : Nat.find hex ≤ i := Nat.find_min' hex ⟨f, hf⟩
  refine ⟨Nat.find hex, g, hle, hg, convert_first_error calib (Nat.lt_of_le_of_lt hle hi) hg ?_⟩
  intro k hk
  have := Nat.find_min hex hk
  cases hc : cameraBody calib k with
  | ok c => exact ⟨c, rfl⟩
  | error e => exact absurd ⟨e, hc⟩ this

end RunLemmas

section FaultLemmas
variable {S P : Type} [PoseLib P S]

theorem modelDispatch_short_kb4 (i : Nat) (params : List S) (h : params.length < 8) :
    modelDispatch i ⟨"kb4", params⟩ = Except.error Fault.paramIndex := by
  have hr : kb4Report i params = Except.error Fault.paramIndex := by
    rcases params with _ | ⟨p0, _ | ⟨p1, _ | ⟨p2, _ | ⟨p3, _ | ⟨p4, _ | ⟨p5, _ | ⟨p6, _ | ⟨p7, rest⟩⟩⟩⟩⟩⟩⟩⟩
    all_goals first
      | (simp at h; omega)
      | (by_cases h0 : i = 0 <;>
          simp [kb4Report, h0, intrinsicsLines, distortionLoop, paramAt, bind, Except.bind,
            pure, Except.pure, List.range'])
  simp [modelDispatch, hr, bind, Except.bind]

theorem modelDispatch_short_ds (i : Nat) (params : List S) (h : params.length < 6) :
    modelDispatch i ⟨"ds", params⟩ = Except.error Fault.paramIndex := by
  have hr : dsModel params = Except.error Fault.paramIndex := by
    rcases params with _ | ⟨p0, _ | ⟨p1, _ | ⟨p2, _ | ⟨p3, _ | ⟨p4, _ | ⟨p5, rest⟩⟩⟩⟩⟩⟩
    all_goals first
      | (simp at h; omega)
      | simp [dsModel, paramAt, Json.set, bind, Except.bind]
  simp [modelDispatch, hr, bind, Except.bind]

theorem modelDispatch_outOfRange (i : Nat) (intr : Intrinsics S)
    (h : paramsInRange intr = false) :
    modelDispatch i intr = Except.error Fault.paramIndex := by
  obtain ⟨name, params⟩ := intr
  by_cases h1 : name = "kb4"
  · subst h1
    simp [paramsInRange] at h
    exact modelDispatch_short_kb4 i params h
  · by_cases h2 : name = "ds"
    · subst h2
      simp [paramsInRange] at h
      exact modelDispatch_short_ds i params h
    · simp [paramsInRange, h1, h2] at h

/-- The outcome of the loop body, by cases on which access is outside its container. -/
theorem cameraBody_cases (calib : Calibration S P) (i : Nat) (hi : i < calib.T_i_c.length) :
    (calib.intrinsics.length ≤ i ∧ cameraBody calib i = Except.error Fault.intrinsicsIndex) ∨
    (∃ intr, calib.intrinsics[i]? = some intr ∧ paramsInRange intr = false ∧
      cameraBody calib i = Except.error Fault.paramIndex) ∨
    (∃ intr, calib.intrinsics[i]? = some intr ∧ paramsInRange intr = true ∧
      calib.vignette.length ≤ i ∧ cameraBody calib i = Except.error Fault.vignetteIndex) ∨
    (∃ intr, calib.intrinsics[i]? = some intr ∧ paramsInRange intr = true ∧
      i < calib.vignette.length ∧ ∃ c, cameraBody calib i = Except.ok c) := by
  cases e1 : calib.intrinsics[i]? with
  | none =>
    left
    exact ⟨List.getElem?_eq_none_iff.1 e1, by simp [cameraBody, e1, bind, Except.bind]⟩
  | some intr =>
    right
    cases hp : paramsInRange intr with
    | false =>
      left
      exact ⟨intr, rfl, hp, by
        simp [cameraBody, e1, modelDispatch_outOfRange i intr hp, bind, Except.bind]⟩
    | true =>
      right
      obtain ⟨d, hd, hshape, -⟩ := modelDispatch_ok i intr hp
      cases e2 : calib.vignette[i]? with
      | none =>
        left
        exact ⟨intr, rfl, hp, List.getElem?_eq_none_iff.1 e2, by
          simp [cameraBody, e1, hd, e2, bind, Except.bind]⟩
      | some vig =>
        right
        have e3 : calib.T_i_c[i]? = some (calib.T_i_c[i]) := List.getElem?_eq_getElem hi
        refine ⟨intr, rfl, hp, ?_, _, cameraBody_eq e1 e2 e3 hd hshape⟩
        by_contra hn
        rw [List.getElem?_eq_none (Nat.le_of_not_lt hn)] at e2
        cases e2

/-- The model dispatch builds the same camera object and sets the flag alike at every
index. -/
theorem modelDispatch_index (i j : Nat) (intr : Intrinsics S)
    (h : paramsInRange intr = true) :
    ∃ d d', modelDispatch i intr = Except.ok d ∧ modelDispatch j intr = Except.ok d' ∧
      d.cameraJson = d'.cameraJson ∧ d.setsFisheye = d'.setsFisheye := by
  obtain ⟨name, params⟩ := intr
  by_cases h1 : name = "kb4"
  · subst h1
    simp [paramsInRange] at h
    obtain ⟨p0, p1, p2, p3, p4, p5, p6, p7, rest, rfl⟩ := exists_eight h
    exact ⟨_, _, modelDispatch_kb4 i _ _ _ _ _ _ _ _ _, modelDispatch_kb4 j _ _ _ _ _ _ _ _ _,
      rfl, rfl⟩
  · by_cases h2 : name = "ds"
    · subst h2
      simp [paramsInRange] at h
      obtain ⟨p0, p1, p2, p3, p4, p5, rest, rfl⟩ := exists_six h
      exact ⟨_, _, modelDispatch_ds i _ _ _ _ _ _ _, modelDispatch_ds j _ _ _ _ _ _ _, rfl, rfl⟩
    · exact ⟨_, _, modelDispatch_other i _ h1 h2, modelDispatch_other j _ h1 h2, rfl, rfl⟩

end FaultLemmas

section SwapLemmas
variable {α : Type}

theorem length_swapAt (l : List α) (i j : Nat) : (swapAt l i j).length = l.length := by
  unfold swapAt
  split <;> simp

theorem getElem?_swapAt (l : List α) {i j : Nat} (hi : i < l.length) (hj : j < l.length)
    (k : Nat) : (swapAt l i j)[k]? = l[swapIdx i j k]? := by
  unfold swapAt swapIdx
  rw [List.getElem?_eq_getElem hi, List.getElem?_eq_getElem hj]
  simp only [List.getElem?_set]
  by_cases hkj : k = j
  · subst hkj
    by_cases hki : k = i
    · subst hki
      simp [hi]
    · have : ¬ i = k := fun h => hki h.symm
      simp [hki, hj, List.getElem?_eq_getElem hi]
  · have hjk : ¬ j = k := fun h => hkj h.symm
    by_cases hki : k = i
    · subst hki
      simp [hjk, hi, List.getElem?_eq_getElem hj]
    · have : ¬ i = k := fun h => hki h.symm
      simp [hkj, hki, hjk, this]

theorem swapIdx_lt {i j k n : Nat} (hi : i < n) (hj : j < n) (hk : k < n) :
    swapIdx i j k < n := by
  unfold swapIdx
  split
  · exact hj
  · split
    · exact hi
    · exact hk

end SwapLemmas

section OutLemmas
variable {S P : Type} [PoseLib P S]

theorem flatten_range_split {α : Type} (f : Nat → List α) {i n : Nat} (hi : i < n) :
    ∃ before after, ((List.range n).map f).flatten = before ++ f i ++ after := by
  induction n with
  | zero => omega
  | succ n ih =>
    rw [List.range_succ, List.map_append, List.flatten_append]
    by_cases h : i < n
    · obtain ⟨b, a, hba⟩ := ih h
      exact ⟨b, a ++ ((List.map f [n]).flatten), by rw [hba]; simp⟩
    · have : i = n := by omega
      subst this
      exact ⟨((List.range i).map f).flatten, [], by simp⟩

/-- The report of the converter contains the output of each loop body. -/
theorem convert_out_split {calib : Calibration S P} (h : inRange calib = true) {i : Nat}
    (hi : i < calib.T_i_c.length) :
    ∃ r cams before after, convert calib = Except.ok r ∧
      r.calibJson.get? "cameras" = some (Json.arr cams) ∧
      cams.length = calib.T_i_c.length ∧
      cams[i]? = some (bodyOf calib i).cameraJson ∧
      r.out = before ++ (bodyOf calib i).out ++ after := by
  obtain ⟨r, cams, hr, hc, hl, hcam⟩ := document_camera h hi
  obtain ⟨b, a, hba⟩ := flatten_range_split (fun k => (bodyOf calib k).out) hi
  have hconv := convert_inRange h
  rw [hr] at hconv
  cases hconv
  exact ⟨_, cams, b,
    a ++ (if (List.range calib.T_i_c.length).any (fun i => (bodyOf calib i).setsFisheye) = true
      then [Out.text "fisheyeCamera true;", Out.endl] else []),
    hr, hc, hl, hcam, by simp only [hba, List.append_assoc]⟩

theorem outKeys_append (a b : List (Out S)) : outKeys (a ++ b) = outKeys a ++ outKeys b := by
  simp [outKeys, List.filterMap_append]

theorem outKeys_kb4Lines (i : Nat) (p0 p1 p2 p3 p4 p5 p6 p7 : S) :
    outKeys (kb4Lines i p0 p1 p2 p3 p4 p5 p6 p7) =
      if i = 0 then
        ["focalLengthX ", "focalLengthY ", "principalPointX ", "principalPointY ",
          "distortionCoeffs "]
      else
        ["secondFocalLengthX ", "secondFocalLengthY ", "secondPrincipalPointX ",
          "secondPrincipalPointY ", "secondDistortionCoeffs "] := by
  by_cases h : i = 0 <;> simp +decide [kb4Lines, outKeys, h]

/-- The key texts printed by the loop body of a camera. -/
theorem outKeys_bodyOf {calib : Calibration S P} (h : inRange calib = true) {i : Nat}
    (hi : i < calib.T_i_c.length) {intr : Intrinsics S}
    (e1 : calib.intrinsics[i]? = some intr) :
    outKeys (bodyOf calib i).out =
      (if intr.getName = "kb4" then
        (if i = 0 then
          ["focalLengthX ", "focalLengthY ", "principalPointX ", "principalPointY ",
            "distortionCoeffs "]
        else
          ["secondFocalLengthX ", "secondFocalLengthY ", "secondPrincipalPointX ",
            "secondPrincipalPointY ", "secondDistortionCoeffs "])
      else []) ++
      [if i = 0 then "imuToCameraMatrix " else "secondImuToCameraMatrix "] := by
  obtain ⟨h1, h2, h3⟩ := (inRange_iff calib).1 h
  have e2 : calib.vignette[i]? = some (calib.vignette[i]) := List.getElem?_eq_getElem _
  have e3 : calib.T_i_c[i]? = some (calib.T_i_c[i]) := List.getElem?_eq_getElem _
  obtain ⟨d, hd, hb⟩ := bodyOf_eq h hi e1 e2 e3
  have hp := h3 i intr hi e1
  rw [hb]
  simp only [outKeys_append, outKeys_matrixReport]
  congr 1
  obtain ⟨name, params⟩ := intr
  by_cases hk : name = "kb4"
  · subst hk
    simp [paramsInRange] at hp
    obtain ⟨p0, p1, p2, p3, p4, p5, p6, p7, rest, rfl⟩ := exists_eight hp
    rw [modelDispatch_kb4] at hd
    cases hd
    simp [outKeys_kb4Lines]
  · by_cases hs : name = "ds"
    · subst hs
      simp [paramsInRange] at hp
      obtain ⟨p0, p1, p2, p3, p4, p5, rest, rfl⟩ := exists_six hp
      rw [modelDispatch_ds] at hd
      cases hd
      simp [outKeys]
    · rw [modelDispatch_other i _ hk hs] at hd
      cases hd
      simp [outKeys, hk]

end OutLemmas

section LineLemmas
variable {S P : Type} [PoseLib P S]

theorem foldl_append_flatMap {α β : Type} (g : α → List β) (l : List α) (init : List β) :
    l.foldl (fun out a => out ++ g a) init = init ++ l.flatMap g := by
  induction l generalizing init with
  | nil => simp
  | cons a l ih => simp [ih]

/-- The text printed on load: the pose lines, then the line with the number of intrinsics. -/
theorem loadReport_eq (calib : Calibration S P) :
    loadReport calib = poseLines calib.T_i_c ++
      [Out.text "Loaded camera with ", Out.size calib.intrinsics.length,
        Out.text " cameras", Out.endl] := by
  simp [loadReport, poseLines, foldl_append_flatMap]

theorem noFisheye_append (a b : List (Out S)) :
    noFisheye (a ++ b) = (noFisheye a && noFisheye b) := by
  simp [noFisheye, List.all_append]

theorem noFisheye_loadReport (calib : Calibration S P) : noFisheye (loadReport calib) = true := by
  rw [loadReport_eq, noFisheye_append]
  have h1 : noFisheye (poseLines calib.T_i_c : List (Out S)) = true := by
    simp only [noFisheye, poseLines, List.all_eq_true, List.mem_flatMap]
    rintro o ⟨p, -, ho⟩
    simp at ho
    rcases ho with rfl | rfl | rfl <;> simp +decide [mentionsFisheye]
  have h2 : noFisheye ([Out.text "Loaded camera with ", Out.size calib.intrinsics.length,
      Out.text " cameras", Out.endl] : List (Out S)) = true := by
    simp +decide [noFisheye, mentionsFisheye]
  simp [h1, h2]

theorem noFisheye_kb4Lines (i : Nat) (p0 p1 p2 p3 p4 p5 p6 p7 : S) :
    noFisheye (kb4Lines i p0 p1 p2 p3 p4 p5 p6 p7) = true := by
  by_cases h : i = 0 <;> simp +decide [kb4Lines, noFisheye, mentionsFisheye, h]

theorem noFisheye_matrixReport (i : Nat) (m : Matrix (Fin 4) (Fin 4) S) :
    noFisheye (matrixReport i m) = true := by
  by_cases h : i = 0 <;>
    simp +decide [matrixReport, noFisheye, mentionsFisheye, finRange_four, h]

theorem noFisheye_bodyOf {calib : Calibration S P} (h : inRange calib = true) {i : Nat}
    (hi : i < calib.T_i_c.length) : noFisheye (bodyOf calib i).out = true := by
  obtain ⟨h1, h2, h3⟩ := (inRange_iff calib).1 h
  have e1 : calib.intrinsics[i]? = some (calib.intrinsics[i]) := List.getElem?_eq_getElem _
  have e2 : calib.vignette[i]? = some (calib.vignette[i]) := List.getElem?_eq_getElem _
  have e3 : calib.T_i_c[i]? = some (calib.T_i_c[i]) := List.getElem?_eq_getElem _
  obtain ⟨d, hd, hb⟩ := bodyOf_eq h hi e1 e2 e3
  have hp := h3 i _ hi e1
  rw [hb]
  simp only [noFisheye_append, noFisheye_matrixReport, Bool.and_true]
  generalize calib.intrinsics[i] = intr at hd hp
  obtain ⟨name, params⟩ := intr
  by_cases hk : name = "kb4"
  · subst hk
    simp [paramsInRange] at hp
    obtain ⟨p0, p1, p2, p3, p4, p5, p6, p7, rest, rfl⟩ := exists_eight hp
    rw [modelDispatch_kb4] at hd
    cases hd
    exact noFisheye_kb4Lines _ _ _ _ _ _ _ _ _
  · by_cases hs : name = "ds"
    · subst hs
      simp [paramsInRange] at hp
      obtain ⟨p0, p1, p2, p3, p4, p5, rest, rfl⟩ := exists_six hp
      rw [modelDispatch_ds] at hd
      cases hd
      rfl
    · rw [modelDispatch_other i _ hk hs] at hd
      cases hd
      rfl

theorem noFisheye_flatten_range (f : Nat → List (Out S)) (n : Nat)
    (h : ∀ i, i < n → noFisheye (f i) = true) :
    noFisheye ((List.range n).map f).flatten = true := by
  simp only [noFisheye, List.all_eq_true, List.mem_flatten, List.mem_map, List.mem_range]
  rintro o ⟨l, ⟨i, hi, rfl⟩, ho⟩
  have := h i hi
  simp only [noFisheye, List.all_eq_true] at this
  exact this o ho

theorem hasLine_key_mem {out : List (Out S)} {key : String} {v : S}
    (h : HasLine out key v) (h1 : key ≠ ",") (h2 : key ≠ ";") : key ∈ outKeys out := by
  obtain ⟨b, a, rfl⟩ := h
  simp [outKeys, List.filterMap_append, h1, h2]

theorem hasLine_append_left {out : List (Out S)} {key : String} {v : S}
    (h : HasLine out key v) (pre post : List (Out S)) : HasLine (pre ++ out ++ post) key v := by
  obtain ⟨b, a, rfl⟩ := h
  exact ⟨pre ++ b, a ++ post, by simp⟩

theorem hasLine_kb4Lines (i : Nat) (p0 p1 p2 p3 p4 p5 p6 p7 : S) :
    HasLine (kb4Lines i p0 p1 p2 p3 p4 p5 p6 p7)
      (if i = 0 then "focalLengthX " else "secondFocalLengthX ") p0 ∧
    HasLine (kb4Lines i p0 p1 p2 p3 p4 p5 p6 p7)
      (if i = 0 then "focalLengthY " else "secondFocalLengthY ") p1 ∧
    HasLine (kb4Lines i p0 p1 p2 p3 p4 p5 p6 p7)
      (if i = 0 then "principalPointX " else "secondPrincipalPointX ") p2 ∧
    HasLine (kb4Lines i p0 p1 p2 p3 p4 p5 p6 p7)
      (if i = 0 then "principalPointY " else "secondPrincipalPointY ") p3 := by
  by_cases h : i = 0
  · simp only [kb4Lines, h, if_true]
    exact ⟨⟨[], _, rfl⟩, ⟨[_, _, _, _], _, rfl⟩, ⟨[_, _, _, _, _, _, _, _], _, rfl⟩,
      ⟨[_, _, _, _, _, _, _, _, _, _, _, _], _, rfl⟩⟩
  · simp only [kb4Lines, h, if_false]
    exact ⟨⟨[], _, rfl⟩, ⟨[_, _, _, _], _, rfl⟩, ⟨[_, _, _, _, _, _, _, _], _, rfl⟩,
      ⟨[_, _, _, _, _, _, _, _, _, _, _, _], _, rfl⟩⟩

end LineLemmas

/-! ## The claims on the inertial blocks and on the report -/

section Claims6

variable {S P : Type} [PoseLib P S]

/-- C11.  When every access of the camera loop is in range the converter completes; in the
`gyroscope` block `noiseStd` and `biasStd` are the 3 components of the gyroscope noise and
bias standard deviations in order and `calibrationBias` is the list of the 12 gyroscope
calibration-bias parameters in their order; in the `accelerometer` block `noiseStd` and
`biasStd` are the 3 accelerometer components in order and `calibrationBias` is the list of
the 9 accelerometer calibration-bias parameters in their order. -/
theorem imu_blocks_values (calib : Calibration S P) (h : inRange calib = true) :
    ∃ r gyro acc gbias abias, convert calib = Except.ok r ∧
      r.calibJson.get? "gyroscope" = some gyro ∧
      gyro.get? "noiseStd" = some (Json.arr [Json.num (calib.gyro_noise_std 0),
        Json.num (calib.gyro_noise_std 1), Json.num (calib.gyro_noise_std 2)]) ∧
      gyro.get? "biasStd" = some (Json.arr [Json.num (calib.gyro_bias_std 0),
        Json.num (calib.gyro_bias_std 1), Json.num (calib.gyro_bias_std 2)]) ∧
      gyro.get? "calibrationBias" = some (Json.arr gbias) ∧ gbias.length = 12 ∧
      (∀ k : Fin 12, gbias[k.val]? = some (Json.num (calib.calib_gyro_bias k))) ∧
      r.calibJson.get? "accelerometer" = some acc ∧
      acc.get? "noiseStd" = some (Json.arr [Json.num (calib.accel_noise_std 0),
        Json.num (calib.accel_noise_std 1), Json.num (calib.accel_noise_std 2)]) ∧
      acc.get? "biasStd" = some (Json.arr [Json.num (calib.accel_bias_std 0),
        Json.num (calib.accel_bias_std 1), Json.num (calib.accel_bias_std 2)]) ∧
      acc.get? "calibrationBias" = some (Json.arr abias) ∧ abias.length = 9 ∧
      (∀ k : Fin 9, abias[k.val]? = some (Json.num (calib.calib_accel_bias k))) := by
  refine ⟨_, gyroObject calib, accObject calib,
    (List.finRange 12).map (fun i => Json.num (calib.calib_gyro_bias i)),
    (List.finRange 9).map (fun i => Json.num (calib.calib_accel_bias i)),
    convert_inRange h, ?_, ?_, ?_, ?_, ?_, ?_, ?_, ?_, ?_, ?_, ?_, ?_⟩
  · simp only [Json.get?]
    exact (lookup_document calib _).2.1
  · simp +decide [gyroObject, Json.get?, lookupKey]
  · simp +decide [gyroObject, Json.get?, lookupKey]
  · simp +decide [gyroObject, Json.get?, lookupKey]
  · simp
  · intro k
    fin_cases k <;> simp [finRange_twelve]
  · simp only [Json.get?]
    exact (lookup_document calib _).1
  · simp +decide [accObject, Json.get?, lookupKey]
  · simp +decide [accObject, Json.get?, lookupKey]
  · simp +decide [accObject, Json.get?, lookupKey]
  · simp
  · intro k
    fin_cases k <;> simp [finRange_nine]

/-- C11, witness: the end-to-end scenario, whose noise standard deviations are `0.01`. -/
theorem imu_blocks_values_witness :
    inRange scenario = true ∧
    ∃ r gyro acc gbias abias, convert scenario = Except.ok r ∧
      r.calibJson.get? "gyroscope" = some gyro ∧
      gyro.get? "noiseStd" = some (Json.arr [Json.num (scenario.gyro_noise_std 0),
        Json.num (scenario.gyro_noise_std 1), Json.num (scenario.gyro_noise_std 2)]) ∧
      gyro.get? "biasStd" = some (Json.arr [Json.num (scenario.gyro_bias_std 0),
        Json.num (scenario.gyro_bias_std 1), Json.num (scenario.gyro_bias_std 2)]) ∧
      gyro.get? "calibrationBias" = some (Json.arr gbias) ∧ gbias.length = 12 ∧
      (∀ k : Fin 12, gbias[k.val]? = some (Json.num (scenario.calib_gyro_bias k))) ∧
      r.calibJson.get? "accelerometer" = some acc ∧
      acc.get? "noiseStd" = some (Json.arr [Json.num (scenario.accel_noise_std 0),
        Json.num (scenario.accel_noise_std 1), Json.num (scenario.accel_noise_std 2)]) ∧
      acc.get? "biasStd" = some (Json.arr [Json.num (scenario.accel_bias_std 0),
        Json.num (scenario.accel_bias_std 1), Json.num (scenario.accel_bias_std 2)]) ∧
      acc.get? "calibrationBias" = some (Json.arr abias) ∧ abias.length = 9 ∧
      (∀ k : Fin 9, abias[k.val]? = some (Json.num (scenario.calib_accel_bias k))) :=
  ⟨by decide, imu_blocks_values scenario (by decide)⟩

/-- C12.  For every camera of the record, the report contains the extrinsic-matrix line of
the camera: the key, then the 16 entries of the matrix of the inverse pose, the `k`-th being
entry `(k mod 4, k div 4)`, separated by commas, the last followed by `;`.  The values of the
line are the row-major flattening of the transpose of the `imuToCamera` matrix of the
document, and differ from the row-major flattening of that matrix itself whenever the matrix
is not symmetric. -/
theorem report_matrix_column_major (calib : Calibration S P) (i : Nat) (pose : P)
    (h : inRange calib = true) (hi : i < calib.T_i_c.length)
    (e : calib.T_i_c[i]? = some pose) :
    ∃ r cams cam before after, convert calib = Except.ok r ∧
      r.calibJson.get? "cameras" = some (Json.arr cams) ∧ cams[i]? = some cam ∧
      cam.get? "imuToCamera" = some (rowMajor (PoseLib.matrix (PoseLib.inverse pose))) ∧
      (rowMajor (PoseLib.matrix (PoseLib.inverse pose))).matrixValues =
        rowMajorValues (PoseLib.matrix (PoseLib.inverse pose)) ∧
      r.out = before ++
        matrixLine (if i = 0 then "imuToCameraMatrix " else "secondImuToCameraMatrix ")
          (PoseLib.matrix (PoseLib.inverse pose)) ++ after ∧
      outValues (matrixLine (if i = 0 then "imuToCameraMatrix " else "secondImuToCameraMatrix ")
          (PoseLib.matrix (PoseLib.inverse pose))) =
        ((List.finRange 16).map fun k => PoseLib.matrix (PoseLib.inverse pose)
          ⟨k.val % 4, Nat.mod_lt _ (by decide)⟩ ⟨k.val / 4, by omega⟩) ∧
      outValues (matrixLine (if i = 0 then "imuToCameraMatrix " else "secondImuToCameraMatrix ")
          (PoseLib.matrix (PoseLib.inverse pose))) =
        rowMajorValues (PoseLib.matrix (PoseLib.inverse pose)).transpose ∧
      ((PoseLib.matrix (PoseLib.inverse pose)).transpose ≠
          PoseLib.matrix (PoseLib.inverse pose) →
        outValues (matrixLine
            (if i = 0 then "imuToCameraMatrix " else "secondImuToCameraMatrix ")
            (PoseLib.matrix (PoseLib.inverse pose))) ≠
          (rowMajor (PoseLib.matrix (PoseLib.inverse pose))).matrixValues) := by
  obtain ⟨r, cams, b, a, hr, hc, -, hcam, hout⟩ := convert_out_split h hi
  have hlen : i < calib.intrinsics.length :=
    Nat.lt_of_lt_of_le hi ((inRange_iff calib).1 h).1
  have hlen' : i < calib.vignette.length :=
    Nat.lt_of_lt_of_le hi ((inRange_iff calib).1 h).2.1
  obtain ⟨d, -, hb⟩ := bodyOf_eq h hi (List.getElem?_eq_getElem hlen)
    (List.getElem?_eq_getElem hlen') e
  rw [hb] at hcam hout
  refine ⟨r, cams, _, b ++ d.out, a, hr, hc, hcam, ?_, matrixValues_rowMajor _, ?_,
    outValues_matrixLine _ _, ?_, ?_⟩
  · simp only [Json.get?, lookup_imuToCamera]
  · rw [hout, matrixReport_eq_matrixLine]
    simp only [List.append_assoc]
  · rw [← matrixReport_eq_matrixLine, outValues_matrixReport]
  · intro hne heq
    rw [← matrixReport_eq_matrixLine, outValues_matrixReport, matrixValues_rowMajor] at heq
    exact hne (rowMajorValues_injective heq)

/-- C12, witness: the second camera of a record of two cameras, translated by `(1, 2, 3)`;
its inverse pose matrix is not symmetric. -/
theorem report_matrix_column_major_witness :
    inRange mixedRig = true ∧ 1 < mixedRig.T_i_c.length ∧
    mixedRig.T_i_c[1]? = some (translationPose 1 2 3) ∧
    (SE3.matrix (SE3.inverse (translationPose (1 : ℤ) 2 3))).transpose ≠
      SE3.matrix (SE3.inverse (translationPose (1 : ℤ) 2 3)) ∧
    ∃ r cams cam before after, convert mixedRig = Except.ok r ∧
      r.calibJson.get? "cameras" = some (Json.arr cams) ∧ cams[1]? = some cam ∧
      cam.get? "imuToCamera" =
        some (rowMajor (SE3.matrix (SE3.inverse (translationPose (1 : ℤ) 2 3)))) ∧
      r.out = before ++
        matrixLine "secondImuToCameraMatrix "
          (SE3.matrix (SE3.inverse (translationPose (1 : ℤ) 2 3))) ++ after ∧
      outValues (matrixLine "secondImuToCameraMatrix "
          (SE3.matrix (SE3.inverse (translationPose (1 : ℤ) 2 3)))) =
        rowMajorValues (SE3.matrix (SE3.inverse (translationPose (1 : ℤ) 2 3))).transpose ∧
      outValues (matrixLine "secondImuToCameraMatrix "
          (SE3.matrix (SE3.inverse (translationPose (1 : ℤ) 2 3)))) ≠
        (rowMajor (SE3.matrix (SE3.inverse (translationPose (1 : ℤ) 2 3)))).matrixValues := by
  have hns : (SE3.matrix (SE3.inverse (translationPose (1 : ℤ) 2 3))).transpose ≠
      SE3.matrix (SE3.inverse (translationPose (1 : ℤ) 2 3)) := by decide
  obtain ⟨r, cams, cam, before, after, h1, h2, h3, h4, -, h6, -, h8, h9⟩ :=
    report_matrix_column_major mixedRig 1 (translationPose 1 2 3) (by decide) (by decide) rfl
  exact ⟨by decide, by decide, rfl, hns, r, cams, cam, before, after, h1, h2, h3, h4, h6, h8,
    h9 hns⟩

/-- C13, amended.  In the report, the lines of the camera at index 0 carry the plain keys
`focalLengthX`, `focalLengthY`, `principalPointX`, `principalPointY`, `distortionCoeffs`
(printed for a `kb4` camera) and `imuToCameraMatrix`; the lines of a camera at any index
from 1 on carry the same keys with `second` in front.  Each key is printed with a blank
after it.  Hence two cameras at indices from 1
on, both `kb4` or both not, print lines with identical keys. -/
theorem report_keys_two_tiers (calib : Calibration S P) (i : Nat) (intr : Intrinsics S)
    (h : inRange calib = true) (hi : i < calib.T_i_c.length)
    (e : calib.intrinsics[i]? = some intr) :
    ∃ c, cameraBody calib i = Except.ok c ∧
      outKeys c.out =
        (if intr.getName = "kb4" then
          (if i = 0 then
            ["focalLengthX ", "focalLengthY ", "principalPointX ", "principalPointY ",
              "distortionCoeffs "]
          else
            ["secondFocalLengthX ", "secondFocalLengthY ", "secondPrincipalPointX ",
              "secondPrincipalPointY ", "secondDistortionCoeffs "])
        else []) ++
        [if i = 0 then "imuToCameraMatrix " else "secondImuToCameraMatrix "] ∧
      ∀ (j : Nat) (intr' : Intrinsics S), 1 ≤ i → 1 ≤ j → j < calib.T_i_c.length →
        calib.intrinsics[j]? = some intr' →
        (intr'.getName = "kb4" ↔ intr.getName = "kb4") →
        ∃ c', cameraBody calib j = Except.ok c' ∧ outKeys c'.out = outKeys c.out := by
  refine ⟨bodyOf calib i, cameraBody_bodyOf h hi, outKeys_bodyOf h hi e, ?_⟩
  intro j intr' h1 h2 hj e' hiff
  refine ⟨bodyOf calib j, cameraBody_bodyOf h hj, ?_⟩
  rw [outKeys_bodyOf h hi e, outKeys_bodyOf h hj e']
  have hi0 : i ≠ 0 := by omega
  have hj0 : j ≠ 0 := by omega
  by_cases hk : intr.getName = "kb4"
  · simp [hk, hiff.2 hk, hi0, hj0]
  · have hk' : ¬ intr'.getName = "kb4" := fun hc => hk (hiff.1 hc)
    simp [hk, hk', hi0, hj0]

/-- C13, witness: in a record of three Kannala-Brandt cameras, the camera at index 0 prints
the plain keys and the cameras at indices 1 and 2 print the same `second` keys. -/
theorem report_keys_two_tiers_witness :
    inRange tripleRig = true ∧
    (∃ c, cameraBody tripleRig 0 = Except.ok c ∧
      outKeys c.out = ["focalLengthX ", "focalLengthY ", "principalPointX ",
        "principalPointY ", "distortionCoeffs ", "imuToCameraMatrix "]) ∧
    (∃ c c', cameraBody tripleRig 1 = Except.ok c ∧ cameraBody tripleRig 2 = Except.ok c' ∧
      outKeys c.out = ["secondFocalLengthX ", "secondFocalLengthY ",
        "secondPrincipalPointX ", "secondPrincipalPointY ", "secondDistortionCoeffs ",
        "secondImuToCameraMatrix "] ∧
      outKeys c'.out = outKeys c.out) := by
  refine ⟨by decide, ?_, ?_⟩
  · obtain ⟨c, hc, hk, -⟩ :=
      report_keys_two_tiers tripleRig 0 ⟨"kb4", [300, 301, 160, 120, 1, 2, 3, 4]⟩ (by decide)
        (by decide) rfl
    exact ⟨c, hc, hk⟩
  · obtain ⟨c, hc, hk, hsame⟩ :=
      report_keys_two_tiers tripleRig 1 ⟨"kb4", [310, 311, 161, 121, 5, 6, 7, 8]⟩ (by decide)
        (by decide) rfl
    obtain ⟨c', hc', hk'⟩ := hsame 2 ⟨"kb4", [320, 321, 162, 122, 9, 10, 11, 12]⟩
      (by decide) (by decide) (by decide) rfl Iff.rfl
    exact ⟨c, c', hc, hc', hk, hk'⟩

/-- C13, counterexample: a record with a double-sphere camera at index 0, a Kannala-Brandt
camera at index 1 and a double-sphere camera at index 2.  The camera at index 0 prints the
key `imuToCameraMatrix` only, and the cameras at indices 1 and 2 print different keys. -/
theorem report_keys_depend_on_model :
    inRange blendRig = true ∧
    ∃ c0 c1 c2, cameraBody blendRig 0 = Except.ok c0 ∧ cameraBody blendRig 1 = Except.ok c1 ∧
      cameraBody blendRig 2 = Except.ok c2 ∧
      outKeys c0.out = ["imuToCameraMatrix "] ∧
      outKeys c1.out = ["secondFocalLengthX ", "secondFocalLengthY ",
        "secondPrincipalPointX ", "secondPrincipalPointY ", "secondDistortionCoeffs ",
        "secondImuToCameraMatrix "] ∧
      outKeys c2.out = ["secondImuToCameraMatrix "] ∧
      outKeys c1.out ≠ outKeys c2.out := by
  have h : inRange blendRig = true := by decide
  have k0 := outKeys_bodyOf h (show 0 < blendRig.T_i_c.length by decide)
    (show blendRig.intrinsics[0]? = some ⟨"ds", [500, 501, 320, 240, 5, 6]⟩ from rfl)
  have k1 := outKeys_bodyOf h (show 1 < blendRig.T_i_c.length by decide)
    (show blendRig.intrinsics[1]? = some ⟨"kb4", [310, 311, 161, 121, 5, 6, 7, 8]⟩ from rfl)
  have k2 := outKeys_bodyOf h (show 2 < blendRig.T_i_c.length by decide)
    (show blendRig.intrinsics[2]? = some ⟨"ds", [520, 521, 322, 242, 7, 8]⟩ from rfl)
  refine ⟨h, bodyOf blendRig 0, bodyOf blendRig 1, bodyOf blendRig 2,
    cameraBody_bodyOf h (by decide), cameraBody_bodyOf h (by decide),
    cameraBody_bodyOf h (by decide), ?_, ?_, ?_, ?_⟩
  · rw [k0]
    decide
  · rw [k1]
    decide
  · rw [k2]
    decide
  · rw [k1, k2]
    decide

end Claims6

/-! ## Auxiliary lemmas on parameter counts and on the locality of camera objects -/

section FilterLemmas
variable {S : Type}

theorem filter_mentionsFisheye_eq_nil {out : List (Out S)} (h : noFisheye out = true) :
    out.filter mentionsFisheye = [] := by
  simp only [noFisheye, List.all_eq_true] at h
  rw [List.filter_eq_nil_iff]
  intro o ho
  simpa using h o ho

end FilterLemmas

section CountLemmas
variable {S P : Type} [PoseLib P S]

theorem paramsInRange_iff (intr : Intrinsics S) :
    paramsInRange intr = true ↔ expectedParams intr.getName ≤ intr.getParam.length := by
  unfold paramsInRange expectedParams
  by_cases h1 : intr.getName = "kb4"
  · simp [h1]
  · by_cases h2 : intr.getName = "ds"
    · simp [h1, h2]
    · simp [h1, h2]

/-- A loop body that fails fails on an access outside a container. -/
theorem cameraBody_error_kind (calib : Calibration S P) {i : Nat}
    (hi : i < calib.T_i_c.length) {f : Fault} (hf : cameraBody calib i = Except.error f) :
    f.isIndexFault = true := by
  rcases cameraBody_cases calib i hi with ⟨-, h⟩ | ⟨_, -, -, h⟩ | ⟨_, -, -, -, h⟩ | ⟨_, -, -, -, c, h⟩
  all_goals
    rw [hf] at h
    cases h
  all_goals rfl

end CountLemmas

section LocalLemmas
variable {S P : Type} [PoseLib P S]

/-- The camera object of a loop body is determined by the intrinsics, the vignette and the
pose of the camera. -/
theorem bodyOf_cameraJson_local {calib calib' : Calibration S P} (h : inRange calib = true)
    (h' : inRange calib' = true) {i j : Nat} (hi : i < calib.T_i_c.length)
    (hj : j < calib'.T_i_c.length)
    (e1 : calib.intrinsics[i]? = calib'.intrinsics[j]?)
    (e2 : calib.vignette[i]? = calib'.vignette[j]?)
    (e3 : calib.T_i_c[i]? = calib'.T_i_c[j]?) :
    (bodyOf calib i).cameraJson = (bodyOf calib' j).cameraJson := by
  obtain ⟨a1, a2, a3⟩ := (inRange_iff calib).1 h
  have f1 : calib.intrinsics[i]? = some (calib.intrinsics[i]) := List.getElem?_eq_getElem _
  have f2 : calib.vignette[i]? = some (calib.vignette[i]) := List.getElem?_eq_getElem _
  have f3 : calib.T_i_c[i]? = some (calib.T_i_c[i]) := List.getElem?_eq_getElem _
  obtain ⟨d, hd, hb⟩ := bodyOf_eq h hi f1 f2 f3
  obtain ⟨d', hd', hb'⟩ := bodyOf_eq h' hj (e1 ▸ f1) (e2 ▸ f2) (e3 ▸ f3)
  obtain ⟨x, x', hx, hx', hxx, -⟩ := modelDispatch_index i j _ (a3 i _ hi f1)
  rw [hd] at hx
  rw [hd'] at hx'
  cases hx
  cases hx'
  rw [hb, hb', hxx]

end LocalLemmas

section MemberLemmas
variable {S P : Type}

theorem lookup_cameras_nonempty (calib : Calibration S P) {cams : List (Json S)}
    (hne : cams ≠ []) :
    lookupKey "cameras" (documentMembers calib cams) = some (Json.arr cams) := by
  rw [(lookup_document calib cams).2.2.2]
  cases cams with
  | nil => exact absurd rfl hne
  | cons c cs => rfl

theorem keys_document_nonempty (calib : Calibration S P) {cams : List (Json S)}
    (hne : cams ≠ []) :
    (Json.obj (documentMembers calib cams)).keys = ["accelerometer", "cameras", "gyroscope"] := by
  cases cams with
  | nil => exact absurd rfl hne
  | cons c cs => simp [Json.keys, documentMembers]

theorem lookup_document_other (calib : Calibration S P) (cams cams' : List (Json S))
    {key : String} (hne : key ≠ "cameras") :
    lookupKey key (documentMembers calib cams) = lookupKey key (documentMembers calib cams') := by
  cases cams <;> cases cams' <;> simp [documentMembers, lookupKey, hne]

theorem documentMembers_swapCameras (calib : Calibration S P) (i j : Nat)
    (cams : List (Json S)) :
    documentMembers (swapCameras calib i j) cams = documentMembers calib cams := rfl

theorem ne_nil_of_length_pos {α : Type} {l : List α} (h : 0 < l.length) : l ≠ [] := by
  intro hn
  rw [hn] at h
  exact Nat.lt_irrefl _ h

theorem inRange_swapCameras {calib : Calibration S P} (h : inRange calib = true) {i j : Nat}
    (hi : i < calib.T_i_c.length) (hj : j < calib.T_i_c.length) :
    inRange (swapCameras calib i j) = true := by
  obtain ⟨a1, a2, a3⟩ := (inRange_iff calib).1 h
  rw [inRange_iff]
  simp only [swapCameras, length_swapAt]
  refine ⟨a1, a2, ?_⟩
  intro k intr hk hget
  rw [getElem?_swapAt _ (Nat.lt_of_lt_of_le hi a1) (Nat.lt_of_lt_of_le hj a1)] at hget
  exact a3 _ intr (swapIdx_lt hi hj hk) hget

end MemberLemmas

/-! ## The claims on the report, on faults and on locality -/

section Claims7

variable {S P : Type} [PoseLib P S]

/-- C14, amended.  For a camera of the record with the model name `kb4`, the report contains
the focal-length and principal-point lines of the camera (with the plain keys at index 0 and
the `second` keys otherwise), with the same four values as the model entry of the camera in
the document.  For a camera with the model name `ds`, which has a model entry in the
document too, the loop body prints the extrinsic-matrix line only. -/
theorem kb4_report_matches_document (calib : Calibration S P) (i : Nat) (intr : Intrinsics S)
    (h : inRange calib = true) (hi : i < calib.T_i_c.length)
    (e : calib.intrinsics[i]? = some intr) :
    ∃ r cams cam c, convert calib = Except.ok r ∧
      r.calibJson.get? "cameras" = some (Json.arr cams) ∧ cams[i]? = some cam ∧
      cameraBody calib i = Except.ok c ∧ c.cameraJson = cam ∧
      (intr.getName = "kb4" →
        ∃ m fx fy cx cy, cam.get? "models" = some (Json.arr [m]) ∧
          m.get? "focalLengthX" = some (Json.num fx) ∧
          m.get? "focalLengthY" = some (Json.num fy) ∧
          m.get? "principalPointX" = some (Json.num cx) ∧
          m.get? "principalPointY" = some (Json.num cy) ∧
          HasLine r.out (if i = 0 then "focalLengthX " else "secondFocalLengthX ") fx ∧
          HasLine r.out (if i = 0 then "focalLengthY " else "secondFocalLengthY ") fy ∧
          HasLine r.out (if i = 0 then "principalPointX " else "secondPrincipalPointX ") cx ∧
          HasLine r.out (if i = 0 then "principalPointY " else "secondPrincipalPointY ") cy) ∧
      (intr.getName = "ds" →
        (∃ m, cam.get? "models" = some (Json.arr [m])) ∧
        outKeys c.out = [if i = 0 then "imuToCameraMatrix " else "secondImuToCameraMatrix "]) := by
  obtain ⟨r, cams, b, a, hr, hc, -, hcam, hout⟩ := convert_out_split h hi
  obtain ⟨h1, h2, h3⟩ := (inRange_iff calib).1 h
  have e2 : calib.vignette[i]? = some (calib.vignette[i]) := List.getElem?_eq_getElem _
  have e3 : calib.T_i_c[i]? = some (calib.T_i_c[i]) := List.getElem?_eq_getElem _
  obtain ⟨d, hd, hb⟩ := bodyOf_eq h hi e e2 e3
  have hp := h3 i intr hi e
  have hkeys := outKeys_bodyOf h hi e
  refine ⟨r, cams, _, bodyOf calib i, hr, hc, hcam, cameraBody_bodyOf h hi, rfl, ?_, ?_⟩
  · intro hn
    obtain ⟨name, params⟩ := intr
    simp only at hn
    subst hn
    simp [paramsInRange] at hp
    obtain ⟨p0, p1, p2, p3, p4, p5, p6, p7, rest, rfl⟩ := exists_eight hp
    rw [modelDispatch_kb4] at hd
    cases hd
    have hl := hasLine_kb4Lines i p0 p1 p2 p3 p4 p5 p6 p7
    have hsplit : r.out = b ++ kb4Lines i p0 p1 p2 p3 p4 p5 p6 p7 ++
        (matrixReport i (PoseLib.matrix (PoseLib.inverse calib.T_i_c[i])) ++ a) := by
      rw [hout, hb]
      simp only [List.append_assoc]
    refine ⟨kb4Object p0 p1 p2 p3 p4 p5 p6 p7, p0, p1, p2, p3, ?_, ?_, ?_, ?_, ?_, ?_, ?_, ?_, ?_⟩
    · rw [hb]
      simp only [Json.get?, lookup_models]
      rfl
    · simp +decide [kb4Object, Json.get?, lookupKey]
    · simp +decide [kb4Object, Json.get?, lookupKey]
    · simp +decide [kb4Object, Json.get?, lookupKey]
    · simp +decide [kb4Object, Json.get?, lookupKey]
    · rw [hsplit]
      exact hasLine_append_left hl.1 _ _
    · rw [hsplit]
      exact hasLine_append_left hl.2.1 _ _
    · rw [hsplit]
      exact hasLine_append_left hl.2.2.1 _ _
    · rw [hsplit]
      exact hasLine_append_left hl.2.2.2 _ _
  · intro hn
    have hk : ¬ intr.getName = "kb4" := by rw [hn]; decide
    refine ⟨?_, by rw [hkeys]; simp [hk]⟩
    obtain ⟨name, params⟩ := intr
    simp only at hn
    subst hn
    simp [paramsInRange] at hp
    obtain ⟨p0, p1, p2, p3, p4, p5, rest, rfl⟩ := exists_six hp
    rw [modelDispatch_ds] at hd
    cases hd
    refine ⟨dsObject p0 p1 p2 p3 p4 p5, ?_⟩
    rw [hb]
    simp only [Json.get?, lookup_models]
    rfl

/-- C14, witness: the Kannala-Brandt camera of the end-to-end scenario, at index 1. -/
theorem kb4_report_matches_document_witness :
    inRange scenario = true ∧ 1 < scenario.T_i_c.length ∧
    scenario.intrinsics[1]? =
      some ⟨"kb4", [300, 300, 160, 120, 1/10, 1/100, 1/1000, 1/10000]⟩ ∧
    ∃ r cams cam, ∃ m : Json ℚ, ∃ fx fy cx cy : ℚ, convert scenario = Except.ok r ∧
      r.calibJson.get? "cameras" = some (Json.arr cams) ∧ cams[1]? = some cam ∧
      cam.get? "models" = some (Json.arr [m]) ∧
      m.get? "focalLengthX" = some (Json.num fx) ∧
      m.get? "focalLengthY" = some (Json.num fy) ∧
      m.get? "principalPointX" = some (Json.num cx) ∧
      m.get? "principalPointY" = some (Json.num cy) ∧
      HasLine r.out "secondFocalLengthX " fx ∧
      HasLine r.out "secondFocalLengthY " fy ∧
      HasLine r.out "secondPrincipalPointX " cx ∧
      HasLine r.out "secondPrincipalPointY " cy := by
  obtain ⟨r, cams, cam, c, h1, h2, h3, -, -, hk, -⟩ :=
    kb4_report_matches_document scenario 1
      ⟨"kb4", [300, 300, 160, 120, 1/10, 1/100, 1/1000, 1/10000]⟩ (by decide) (by decide) rfl
  obtain ⟨m, fx, fy, cx, cy, g1, g2, g3, g4, g5, g6, g7, g8, g9⟩ := hk rfl
  exact ⟨by decide, by decide, rfl, r, cams, cam, m, fx, fy, cx, cy, h1, h2, h3, g1, g2, g3,
    g4, g5, g6, g7, g8, g9⟩

/-- C14, counterexample: the record with a single double-sphere camera.  The document has
the model entry of the camera, with `focalLengthX` equal to 500, and the report, which has
the single key `imuToCameraMatrix`, contains no `focalLengthX` line. -/
theorem ds_report_has_no_intrinsics :
    ∃ r cams cam m, convert bareRig = Except.ok r ∧
      r.calibJson.get? "cameras" = some (Json.arr cams) ∧ cams[0]? = some cam ∧
      cam.get? "models" = some (Json.arr [m]) ∧
      m.get? "focalLengthX" = some (Json.num 500) ∧
      outKeys r.out = ["imuToCameraMatrix "] ∧
      ¬ HasLine r.out "focalLengthX " 500 := by
  have h : inRange bareRig = true := by decide
  have hi : 0 < bareRig.T_i_c.length := by decide
  obtain ⟨r, cams, hr, hc, -, hcam⟩ := document_camera h hi
  have hconv := convert_inRange h
  rw [hr] at hconv
  cases hconv
  have hkeys : outKeys
      (((List.range bareRig.T_i_c.length).map fun i => (bodyOf bareRig i).out).flatten ++
        (if (List.range bareRig.T_i_c.length).any (fun i => (bodyOf bareRig i).setsFisheye) = true
          then [Out.text "fisheyeCamera true;", Out.endl] else [])) = ["imuToCameraMatrix "] := by
    decide
  obtain ⟨d, hd, hb⟩ := @bodyOf_eq ℤ (SE3 ℤ) _ bareRig h 0 hi
    ⟨"ds", [500, 501, 320, 240, 5, 6]⟩ ⟨[]⟩ (translationPose 0 0 0) rfl rfl rfl
  rw [modelDispatch_ds] at hd
  cases hd
  refine ⟨_, cams, _, dsObject 500 501 320 240 5 6, hr, hc, hcam, ?_, ?_, hkeys, ?_⟩
  · rw [hb]
    simp only [Json.get?, lookup_models]
    rfl
  · simp +decide [dsObject, Json.get?, lookupKey]
  · intro hl
    have := hasLine_key_mem hl (by decide) (by decide)
    rw [hkeys] at this
    simp at this

end Claims7

section Claims8

variable {S P : Type} [PoseLib P S]

/-- C15, amended.  When every access of the camera loop is in range, the standard output of
a run is: the pose lines, then the summary line, whose count is the length of the
intrinsics list, then the report of the converter, which contains the lines of every camera.
The summary line thus stands before all per-camera lines.  The document has one camera entry
per pose, so the count of the summary line is the number of camera entries exactly when the
intrinsics list and the pose list have the same length. -/
theorem summary_line_before_cameras (calib : Calibration S P) (calib_path : String)
    (pathExists : Bool) (h : inRange calib = true) :
    ∃ r, convert calib = Except.ok r ∧
      (main calib_path pathExists (Input.loaded calib)).stdout =
        poseLines calib.T_i_c ++
        [Out.text "Loaded camera with ", Out.size calib.intrinsics.length,
          Out.text " cameras", Out.endl] ++ r.out ∧
      (∀ i, i < calib.T_i_c.length →
        ∃ c before after, cameraBody calib i = Except.ok c ∧
          r.out = before ++ c.out ++ after) ∧
      (0 < calib.T_i_c.length →
        ∃ cams, r.calibJson.get? "cameras" = some (Json.arr cams) ∧
          cams.length = calib.T_i_c.length ∧
          (calib.intrinsics.length = cams.length ↔
            calib.intrinsics.length = calib.T_i_c.length)) := by
  refine ⟨_, convert_inRange h, ?_, ?_, ?_⟩
  · rw [main_of_convert_ok (convert_inRange h), loadReport_eq]
  · intro i hi
    obtain ⟨r, cams, b, a, hr, -, -, -, hout⟩ := convert_out_split h hi
    rw [convert_inRange h] at hr
    cases hr
    exact ⟨bodyOf calib i, b, a, cameraBody_bodyOf h hi, hout⟩
  · intro hpos
    obtain ⟨r, cams, hr, hc, hl, -⟩ := document_camera h hpos
    rw [convert_inRange h] at hr
    cases hr
    exact ⟨cams, hc, hl, by rw [hl]⟩

/-- C15, witness: the end-to-end scenario. -/
theorem summary_line_before_cameras_witness :
    inRange scenario = true ∧
    ∃ r, convert scenario = Except.ok r ∧
      (main "calib.json" true (Input.loaded scenario)).stdout =
        poseLines scenario.T_i_c ++
        [Out.text "Loaded camera with ", Out.size 2, Out.text " cameras", Out.endl] ++ r.out ∧
      (∀ i, i < 2 →
        ∃ c before after, cameraBody scenario i = Except.ok c ∧
          r.out = before ++ c.out ++ after) := by
  obtain ⟨r, h1, h2, h3, -⟩ :=
    summary_line_before_cameras scenario "calib.json" true (by decide)
  exact ⟨by decide, r, h1, h2, h3⟩

/-- C15, counterexample: a record with one pose and two intrinsics.  The summary line reports
2 cameras while the document has 1 camera entry, and the line is followed, not preceded, by
the lines of the camera. -/
theorem summary_line_first_and_counts_intrinsics :
    ∃ r cams, convert spareRig = Except.ok r ∧
      r.calibJson.get? "cameras" = some (Json.arr cams) ∧ cams.length = 1 ∧
      (main "calib.json" true (Input.loaded spareRig)).stdout =
        [Out.text "T_i_c ", Out.mat (SE3.matrix (translationPose 1 2 3)), Out.endl,
          Out.text "Loaded camera with ", Out.size 2, Out.text " cameras", Out.endl] ++ r.out ∧
      outKeys r.out = ["focalLengthX ", "focalLengthY ", "principalPointX ",
        "principalPointY ", "distortionCoeffs ", "imuToCameraMatrix ", "fisheyeCamera true;"] := by
  have h : inRange spareRig = true := by decide
  have hi : 0 < spareRig.T_i_c.length := by decide
  obtain ⟨r, cams, hr, hc, hl, -⟩ := document_camera h hi
  have hconv := convert_inRange h
  rw [hr] at hconv
  cases hconv
  refine ⟨_, cams, hr, hc, hl, ?_, by decide⟩
  rw [main_of_convert_ok hr, loadReport_eq]
  rfl

/-- C19.  When every access of the camera loop is in range, the standard output of a run is
a body without any `fisheyeCamera` text, which contains the lines of every camera, followed
by the line `fisheyeCamera true;` when a processed camera has the model name `kb4`, and by
nothing otherwise.  So the line is printed exactly when there is such a camera, and then it is
the only `fisheyeCamera` text of the output and stands after every per-camera line. -/
theorem fisheye_report_line (calib : Calibration S P) (calib_path : String)
    (pathExists : Bool) (h : inRange calib = true) :
    ∃ body : List (Out S), noFisheye body = true ∧
      (∀ i, i < calib.T_i_c.length →
        ∃ c before after, cameraBody calib i = Except.ok c ∧
          body = before ++ c.out ++ after) ∧
      ((∃ i intr, i < calib.T_i_c.length ∧ calib.intrinsics[i]? = some intr ∧
          intr.getName = "kb4") →
        (main calib_path pathExists (Input.loaded calib)).stdout =
            body ++ [Out.text "fisheyeCamera true;", Out.endl] ∧
          (main calib_path pathExists (Input.loaded calib)).stdout.filter mentionsFisheye =
            [Out.text "fisheyeCamera true;"]) ∧
      ((¬ ∃ i intr, i < calib.T_i_c.length ∧ calib.intrinsics[i]? = some intr ∧
          intr.getName = "kb4") →
        (main calib_path pathExists (Input.loaded calib)).stdout = body) := by
  refine ⟨loadReport calib ++
    ((List.range calib.T_i_c.length).map fun i => (bodyOf calib i).out).flatten, ?_, ?_, ?_, ?_⟩
  · rw [noFisheye_append, noFisheye_loadReport,
      noFisheye_flatten_range _ _ (fun i hi => noFisheye_bodyOf h hi)]
    rfl
  · intro i hi
    obtain ⟨b, a, hba⟩ := flatten_range_split (fun k => (bodyOf calib k).out) hi
    exact ⟨bodyOf calib i, loadReport calib ++ b, a, cameraBody_bodyOf h hi, by
      simp only [hba, List.append_assoc]⟩
  · intro hk
    have hbody : noFisheye (loadReport calib ++
        ((List.range calib.T_i_c.length).map fun i => (bodyOf calib i).out).flatten) = true := by
      rw [noFisheye_append, noFisheye_loadReport,
        noFisheye_flatten_range _ _ (fun i hi => noFisheye_bodyOf h hi)]
      rfl
    have hout : (main calib_path pathExists (Input.loaded calib)).stdout =
        (loadReport calib ++
          ((List.range calib.T_i_c.length).map fun i => (bodyOf calib i).out).flatten) ++
        [Out.text "fisheyeCamera true;", Out.endl] := by
      rw [main_of_convert_ok (convert_inRange h)]
      simp only [(any_setsFisheye_iff h).2 hk, if_true, List.append_assoc]
    refine ⟨hout, ?_⟩
    rw [hout, List.filter_append, filter_mentionsFisheye_eq_nil hbody]
    simp +decide [mentionsFisheye]
  · intro hk
    rw [main_of_convert_ok (convert_inRange h)]
    have : ¬ ((List.range calib.T_i_c.length).any (fun i => (bodyOf calib i).setsFisheye)
        = true) := fun hc => hk ((any_setsFisheye_iff h).1 hc)
    simp [this]

/-- C19, witness: the end-to-end scenario, whose second camera has the model name `kb4`. -/
theorem fisheye_report_line_witness :
    inRange scenario = true ∧
    (∃ i intr, i < scenario.T_i_c.length ∧ scenario.intrinsics[i]? = some intr ∧
      intr.getName = "kb4") ∧
    ∃ body : List (Out ℚ), noFisheye body = true ∧
      (∀ i, i < scenario.T_i_c.length →
        ∃ c before after, cameraBody scenario i = Except.ok c ∧
          body = before ++ c.out ++ after) ∧
      (main "calib.json" true (Input.loaded scenario)).stdout =
        body ++ [Out.text "fisheyeCamera true;", Out.endl] ∧
      (main "calib.json" true (Input.loaded scenario)).stdout.filter mentionsFisheye =
        [Out.text "fisheyeCamera true;"] := by
  have hk : ∃ i intr, i < scenario.T_i_c.length ∧ scenario.intrinsics[i]? = some intr ∧
      intr.getName = "kb4" := ⟨1, _, by decide, rfl, rfl⟩
  obtain ⟨body, h1, h2, h3, -⟩ := fisheye_report_line scenario "calib.json" true (by decide)
  exact ⟨by decide, hk, body, h1, h2, (h3 hk).1, (h3 hk).2⟩

end Claims8

section Claims9

variable {S P : Type} [PoseLib P S]

end Claims9

section Claims10

variable {S P : Type} [PoseLib P S]

/-- C18.  The camera loop runs once per pose and reads the intrinsics and the vignette at
the index of the pose.  When the intrinsics and vignette lists are at least as long as the
pose list and each processed `kb4` or `ds` camera has its 8 or 6 parameters, every loop body
completes, the converter completes, and the document has one camera entry per pose.  When
the intrinsics list or the vignette list is shorter than the pose list, the loop body at the
first missing index stops at an access outside a container, and the converter stops at such
an access. -/
theorem camera_loop_bounds (calib : Calibration S P) :
    (inRange calib = true →
      ∃ r, convert calib = Except.ok r ∧
        (∀ i, i < calib.T_i_c.length → ∃ c, cameraBody calib i = Except.ok c) ∧
        (0 < calib.T_i_c.length →
          ∃ cams, r.calibJson.get? "cameras" = some (Json.arr cams) ∧
            cams.length = calib.T_i_c.length)) ∧
    (calib.intrinsics.length < calib.T_i_c.length →
      cameraBody calib calib.intrinsics.length = Except.error Fault.intrinsicsIndex ∧
      ∃ k f, k < calib.T_i_c.length ∧ cameraBody calib k = Except.error f ∧
        f.isIndexFault = true ∧ convert calib = Except.error f) ∧
    (calib.vignette.length < calib.T_i_c.length →
      (∃ f, cameraBody calib calib.vignette.length = Except.error f ∧
        f.isIndexFault = true) ∧
      ∃ k f, k < calib.T_i_c.length ∧ cameraBody calib k = Except.error f ∧
        f.isIndexFault = true ∧ convert calib = Except.error f) := by
  refine ⟨?_, ?_, ?_⟩
  · intro h
    refine ⟨_, convert_inRange h, fun i hi => ⟨_, cameraBody_bodyOf h hi⟩, ?_⟩
    intro hpos
    obtain ⟨r, cams, hr, hc, hl, -⟩ := document_camera h hpos
    rw [convert_inRange h] at hr
    cases hr
    exact ⟨cams, hc, hl⟩
  · intro hlt
    have hb : cameraBody calib calib.intrinsics.length =
        Except.error Fault.intrinsicsIndex := by
      rcases cameraBody_cases calib _ hlt with
        ⟨-, h⟩ | ⟨_, e, -, -⟩ | ⟨_, e, -, -, -⟩ | ⟨_, e, -, -, -, -⟩
      · exact h
      all_goals
        rw [List.getElem?_eq_none (Nat.le_refl _)] at e
        cases e
    obtain ⟨k, g, hk, hg, hconv⟩ := convert_error_of_body calib hlt hb
    have hk' : k < calib.T_i_c.length := Nat.lt_of_le_of_lt hk hlt
    exact ⟨hb, k, g, hk', hg, cameraBody_error_kind calib hk' hg, hconv⟩
  · intro hlt
    have hb : ∃ f, cameraBody calib calib.vignette.length = Except.error f := by
      rcases cameraBody_cases calib _ hlt with
        ⟨-, h⟩ | ⟨_, -, -, h⟩ | ⟨_, -, -, -, h⟩ | ⟨_, -, -, hv, -, -⟩
      · exact ⟨_, h⟩
      · exact ⟨_, h⟩
      · exact ⟨_, h⟩
      · exact absurd hv (Nat.lt_irrefl _)
    obtain ⟨f, hf⟩ := hb
    obtain ⟨k, g, hk, hg, hconv⟩ := convert_error_of_body calib hlt hf
    have hk' : k < calib.T_i_c.length := Nat.lt_of_le_of_lt hk hlt
    exact ⟨⟨f, hf, cameraBody_error_kind calib hlt hf⟩, k, g, hk', hg,
      cameraBody_error_kind calib hk' hg, hconv⟩

/-- C18, witness: the end-to-end scenario, where every access is in range, and a record
with two poses and the intrinsics of one camera, where the second loop body reads the
intrinsics outside the list. -/
theorem camera_loop_bounds_witness :
    (inRange scenario = true ∧
      ∃ r, convert scenario = Except.ok r ∧
        (∀ i, i < scenario.T_i_c.length → ∃ c, cameraBody scenario i = Except.ok c)) ∧
    (lonelyRig.intrinsics.length < lonelyRig.T_i_c.length ∧
      cameraBody lonelyRig 1 = Except.error Fault.intrinsicsIndex ∧
      ∃ k f, k < lonelyRig.T_i_c.length ∧ cameraBody lonelyRig k = Except.error f ∧
        f.isIndexFault = true ∧ convert lonelyRig = Except.error f) := by
  obtain ⟨r, h1, h2, -⟩ := (camera_loop_bounds scenario).1 (by decide)
  exact ⟨⟨by decide, r, h1, h2⟩, by decide, (camera_loop_bounds lonelyRig).2.1 (by decide)⟩

end Claims10

section Claims11

variable {S P : Type} [PoseLib P S]

/-- C20.  The camera object of a camera is determined by the intrinsics (model name and
parameters), the vignette and the pose of that camera: a camera with the same data at any
index of any record gets the same object, with the same keys.  Exchanging two cameras of the
record exchanges the two entries of `cameras` and leaves every other member of the document
as it is. -/
theorem camera_object_local (calib : Calibration S P) (i j : Nat)
    (h : inRange calib = true) (hi : i < calib.T_i_c.length) (hj : j < calib.T_i_c.length) :
    (∀ (calib' : Calibration S P) (k : Nat), inRange calib' = true →
      k < calib'.T_i_c.length →
      calib'.intrinsics[k]? = calib.intrinsics[i]? →
      calib'.vignette[k]? = calib.vignette[i]? →
      calib'.T_i_c[k]? = calib.T_i_c[i]? →
      ∃ c c', cameraBody calib i = Except.ok c ∧ cameraBody calib' k = Except.ok c' ∧
        c'.cameraJson = c.cameraJson) ∧
    ∃ r r' cams, convert calib = Except.ok r ∧
      convert (swapCameras calib i j) = Except.ok r' ∧
      r.calibJson.get? "cameras" = some (Json.arr cams) ∧
      r'.calibJson.get? "cameras" = some (Json.arr (swapAt cams i j)) ∧
      r'.calibJson.keys = r.calibJson.keys ∧
      ∀ key, key ≠ "cameras" → r'.calibJson.get? key = r.calibJson.get? key := by
  constructor
  · intro calib' k h' hk e1 e2 e3
    exact ⟨_, _, cameraBody_bodyOf h hi, cameraBody_bodyOf h' hk,
      (bodyOf_cameraJson_local h h' hi hk e1.symm e2.symm e3.symm).symm⟩
  · have hs := inRange_swapCameras h hi hj
    obtain ⟨a1, a2, a3⟩ := (inRange_iff calib).1 h
    have hlen : (swapCameras calib i j).T_i_c.length = calib.T_i_c.length := by
      simp [swapCameras, length_swapAt]
    have hpos : 0 < calib.T_i_c.length := Nat.lt_of_le_of_lt (Nat.zero_le _) hi
    have hcams : (List.range (swapCameras calib i j).T_i_c.length).map
          (fun k => (bodyOf (swapCameras calib i j) k).cameraJson) =
        swapAt ((List.range calib.T_i_c.length).map fun k => (bodyOf calib k).cameraJson)
          i j := by
      apply List.ext_getElem?
      intro k
      rw [getElem?_swapAt _ (by simpa using hi) (by simpa using hj), hlen]
      by_cases hk : k < calib.T_i_c.length
      · have hk' : swapIdx i j k < calib.T_i_c.length := swapIdx_lt hi hj hk
        simp only [List.getElem?_map, List.getElem?_range hk, List.getElem?_range hk',
          Option.map_some']
        congr 1
        apply bodyOf_cameraJson_local hs h (by rw [hlen]; exact hk) hk'
        · exact getElem?_swapAt _ (Nat.lt_of_lt_of_le hi a1) (Nat.lt_of_lt_of_le hj a1) k
        · exact getElem?_swapAt _ (Nat.lt_of_lt_of_le hi a2) (Nat.lt_of_lt_of_le hj a2) k
        · exact getElem?_swapAt _ hi hj k
      · have hk' : ¬ swapIdx i j k < calib.T_i_c.length := by
          unfold swapIdx
          split
          · omega
          · split
            · omega
            · exact hk
        simp [List.getElem?_eq_none, Nat.le_of_not_lt hk, Nat.le_of_not_lt hk']
    have hr' := convert_inRange hs
    rw [hcams, documentMembers_swapCameras] at hr'
    have hne : ((List.range calib.T_i_c.length).map fun k => (bodyOf calib k).cameraJson) ≠
        [] := ne_nil_of_length_pos (by simpa using hpos)
    have hne' : swapAt ((List.range calib.T_i_c.length).map fun k =>
        (bodyOf calib k).cameraJson) i j ≠ [] :=
      ne_nil_of_length_pos (by rw [length_swapAt]; simpa using hpos)
    refine ⟨_, _, _, convert_inRange h, hr', lookup_cameras_nonempty calib hne,
      lookup_cameras_nonempty calib hne', ?_, ?_⟩
    · rw [keys_document_nonempty calib hne, keys_document_nonempty calib hne']
    · intro key hkey
      exact lookup_document_other calib _ _ hkey

/-- C20, witness: exchanging the two cameras of the end-to-end scenario exchanges the two
entries of `cameras`. -/
theorem camera_object_local_witness :
    inRange scenario = true ∧ 0 < scenario.T_i_c.length ∧ 1 < scenario.T_i_c.length ∧
    ∃ r r' cams, convert scenario = Except.ok r ∧
      convert (swapCameras scenario 0 1) = Except.ok r' ∧
      r.calibJson.get? "cameras" = some (Json.arr cams) ∧
      r'.calibJson.get? "cameras" = some (Json.arr (swapAt cams 0 1)) ∧
      r'.calibJson.keys = r.calibJson.keys ∧
      ∀ key, key ≠ "cameras" → r'.calibJson.get? key = r.calibJson.get? key :=
  ⟨by decide, by decide, by decide,
    (camera_object_local scenario 0 1 (by decide) (by decide) (by decide)).2⟩

end Claims11

end CalibrationConverter
